import Mathlib

/-!
Verification of the osprey streaming platform core against its specification.

The definitions below are a shallow embedding of the relevant parts of
`src/lib/database.py` and `src/main/lib/lib.py`: Python floats for wall-clock
times become rationals, redis stream ids become a structured (integer-ms,
sequence) pair, byte strings become lists of characters (latin-1 maps bytes to
code points one-to-one), dictionaries become insertion-ordered association
lists, and the redis backend is supplied as an oracle of responses.  Names
follow the source.
-/

namespace Osprey

/-- Truncation of a rational toward zero, modelling Python's
`str(unix_time).split('.')[0]` conversion in `Database.time_to_redis`
(`database.py` line 240): the decimal part of the millisecond timestamp is
dropped.  All timestamps in play are nonnegative. -/
def ratTrunc (q : ℚ) : ℤ :=
  q.num / (q.den : ℤ)

/-- Redis stream id: integer milliseconds plus an optional sequence suffix.
The wire form is `"<ms>"` or `"<ms>-<seq>"`; redis reads a missing suffix as
sequence 0. -/
structure RedisId where
  ms : ℤ
  seq : Option ℤ
deriving DecidableEq, Repr

/-- Numeric view of a redis id used for ordering: a missing sequence suffix
means sequence 0. -/
def RedisId.val (i : RedisId) : ℤ × ℤ :=
  (i.ms, i.seq.getD 0)

/-- Model of `Database.time_to_redis` (`database.py` lines 240-242): convert a
unix time in milliseconds to a redis timestamp, ignoring precision beyond a
millisecond. -/
def time_to_redis (t : ℚ) : RedisId :=
  ⟨ratTrunc t, none⟩

/-- Model of `Database.redis_to_time` (`database.py` lines 244-249): the
integer-millisecond part of a redis id, as a float. -/
def redis_to_time (i : RedisId) : ℚ :=
  (i.ms : ℚ)

/-- State of one `Bookmark` (`database.py` lines 1235-1274).  The
`multiprocessing.Lock` is modelled by the boolean `lockHeld`; `Bookmark.lock
(block=False)` returns `True` exactly when the lock was free and is now taken,
and `Bookmark.release` sets it back to free.  The remaining fields are the
instance attributes set in `Bookmark.__init__`. -/
structure Bookmark where
  lockHeld : Bool
  first_id : Option RedisId
  last_id : Option RedisId
  first_time : Option ℚ
  last_time : Option ℚ
  end_id : Option RedisId
  sample_rate : Option ℚ
  write : Option ℤ
  seq : Option ℤ
deriving DecidableEq, Repr

/-- Model of `Bookmark.__init__`: lock free, every field `None`. -/
def Bookmark.init : Bookmark :=
  ⟨false, none, none, none, none, none, none, none, none⟩

/-- Model of `Database.validate_redis_time` (`database.py` lines 251-267),
line by line.  `if not last_write` is Python falsiness: `None` and `0` both
take the early return.  In the equal-millisecond branch the source evaluates
`bookmark.seq + 1` which raises `TypeError` when `seq` is still `None`; that
is the `.error` case.  Appending `'-' + str(seq+1)` to the plain id string is
the structured `seq := some (s+1)`. -/
def validate_redis_time (redis_id : RedisId) (b : Bookmark) :
    Except String (RedisId × Bookmark) :=
  let last_write := b.write
  if last_write = none ∨ last_write = some 0 then
    .ok (redis_id, b)
  else
    let b1 : Bookmark := { b with write := some redis_id.ms }
    if some redis_id.ms = last_write then
      match b1.seq with
      | some s => .ok ({ redis_id with seq := some (s + 1) },
                       { b1 with seq := some (s + 1) })
      | none => .error "TypeError: unsupported operand type for +: NoneType and int"
    else
      .ok (redis_id, { b1 with seq := some 0 })

/-- Id-generation loop of `Database.write_data` (`database.py` lines 344-359)
for one stream: for each row, `time_to_redis` on the row's `time` column
followed by `validate_redis_time` against the stream's bookmark, collecting
the ids passed to `xadd` in order. -/
def write_data_ids (times : List ℚ) (b : Bookmark) :
    Except String (List RedisId × Bookmark) :=
  times.foldlM
    (fun acc t => do
      let time_id := time_to_redis t
      let (rid, b') ← validate_redis_time time_id acc.2
      pure (acc.1 ++ [rid], b'))
    (([] : List RedisId), b)

/-- Entry of a redis backend response: a stream id together with the
field-value pairs stored at that id. -/
abbrev Entry := RedisId × List (String × String)

/-- Output-building loop shared by the four conversion branches of
`Database.read_data` (`database.py` lines 441-479): group field values of the
response entries by key, appending in response order.  The float conversion
and byte decoding applied by the individual branches do not change the
grouping and are elided. -/
def collectOutput (response : List Entry) : List (String × List String) :=
  response.foldl
    (fun out e =>
      e.2.foldl
        (fun out kv =>
          match out.lookup kv.1 with
          | some vs => out.map (fun p => if p.1 = kv.1 then (p.1, vs ++ [kv.2]) else p)
          | none => out ++ [(kv.1, [kv.2])])
        out)
    []

/-- Oracle for one `Database.read_data` call: the wall clock `self.time()`,
the `self.start_time` attribute, and the redis responses the backend would
return for each query the method can issue. -/
structure ReadEnv where
  now : ℚ
  start_time : ℚ
  xrevrange : ℕ → List Entry
  xread : RedisId → List Entry
  xreadBlock : List Entry

/-- Model of `Database.read_data` (`database.py` lines 366-487).  The lock
handling is verbatim: the source runs `if bookmark.lock(block=False): return`,
so the call returns `None` precisely when `acquire` succeeded (lock was free,
and it is left held), and proceeds to read and mutate the bookmark precisely
when the lock was already held by someone else; the proceeding path ends in
`bookmark.release()`.  The truthiness tests on `last_id`/`last_time` and
`first_time` are modelled as `Option` matches (real timestamps are nonzero).
The `to_json` serialization is elided; the result is the output dictionary. -/
def read_data (env : ReadEnv) (stream : Option String) (count : Option ℕ)
    (max_time : Option ℚ) (b : Bookmark) :
    Option (List (String × List String)) × Bookmark :=
  match stream with
  | none => (none, b)
  | some _ =>
    let acquired := b.lockHeld = false
    let b1 : Bookmark := if acquired then { b with lockHeld := true } else b
    if acquired then
      (none, b1)
    else
      let response :=
        match count with
        | some c => env.xrevrange c
        | none =>
          match b1.last_id, b1.last_time with
          | some lid, some lt =>
            let time_since := env.now - lt
            let lid' :=
              match max_time with
              | some mt =>
                if time_since > mt * 1000 then
                  time_to_redis (redis_to_time lid + (time_since - mt * 1000))
                else lid
              | none => lid
            env.xread lid'
          | _, _ => env.xreadBlock
      if response = [] then
        (none, { b1 with lockHeld := false })
      else
        let lastId := (response.getLastD (⟨0, none⟩, [])).1
        let b2 : Bookmark :=
          if b1.first_time = none then
            { b1 with first_time := some env.start_time, first_id := some lastId }
          else b1
        let b3 : Bookmark := { b2 with last_time := some env.now, last_id := some lastId }
        (some (collectOutput response), { b3 with lockHeld := false })

/-- State of a `PlaybackDatabase` (`database.py` lines 824-836): playback
speed multiplier, active flag, the real time playback was last started (ms),
and the playback-relative time at which it was last paused (ms).  The wall
clock `time()` (seconds) is passed in explicitly. -/
structure PlaybackDB where
  playback_speed : ℚ
  playback_active : Bool
  start_time : ℚ
  relative_stop_time : ℚ
deriving DecidableEq, Repr

/-- Model of `PlaybackDatabase.is_streaming` (`database.py` lines 845-847). -/
def PlaybackDB.is_streaming (s : PlaybackDB) : Bool :=
  s.playback_active

/-- Model of `PlaybackDatabase.time` (`database.py` lines 849-856): while
active, the pause-relative time plus speed-scaled wall time since the last
start; while paused, the frozen pause-relative time. -/
def PlaybackDB.time (s : PlaybackDB) (now : ℚ) : ℚ :=
  if s.is_streaming then
    let diff := (now * 1000 - s.start_time) * s.playback_speed
    s.relative_stop_time + diff
  else
    s.relative_stop_time

/-- Model of `PlaybackDatabase.start` (`database.py` lines 858-867): a no-op
when already streaming, otherwise record the start wall time and activate. -/
def PlaybackDB.start (s : PlaybackDB) (now : ℚ) : PlaybackDB :=
  if s.is_streaming then s
  else { s with start_time := now * 1000, playback_active := true }

/-- Model of `PlaybackDatabase.stop` (`database.py` lines 869-873): record the
current playback-relative time as the pause time and deactivate. -/
def PlaybackDB.stop (s : PlaybackDB) (now : ℚ) : PlaybackDB :=
  { s with relative_stop_time := s.time now, playback_active := false }

/-- Session entry of the `DatabaseController`: whether the bound store is the
live one (`LiveDatabase.live = True`) or a playback store, and for playback
the backend port it is connected to. -/
structure DBSession where
  live : Bool
  port : ℕ
deriving DecidableEq, Repr

/-- Entry of `DatabaseController.playback_ports`: the dump file served on the
port (if any) and the number of connected `Database` objects. -/
structure PortInfo where
  file : Option String
  count : ℤ
deriving DecidableEq, Repr

/-- State of a `DatabaseController` (`database.py` lines 72-89): the
session-id-to-store binding and the playback port pool. -/
structure Controller where
  sessions : List (String × DBSession)
  playback_ports : List (ℕ × PortInfo)
deriving DecidableEq, Repr

/-- Model of `DatabaseController.get` (`database.py` lines 133-135). -/
def Controller.get (c : Controller) (id : String) : Option DBSession :=
  c.sessions.lookup id

/-- Pointwise update of one port's info, modelling in-place mutation of
`self.playback_ports[db.port]`. -/
def portsUpdate (ps : List (ℕ × PortInfo)) (p : ℕ) (f : PortInfo → PortInfo) :
    List (ℕ × PortInfo) :=
  ps.map (fun q => if q.1 = p then (q.1, f q.2) else q)

/-- Model of `DatabaseController.remove` (`database.py` lines 137-159).  The
returned boolean records whether `db.shutdown()` was issued to a playback
backend.  For a live store the source returns immediately after the
`if db.live` test, before the `del self.sessions[ID]` line.  The source's
`if not info: return` line can never fire (the indexed value is a non-empty
dict); a missing port would raise `KeyError`, modelled as no change. -/
def Controller.remove (c : Controller) (id : String) : Controller × Bool :=
  match c.sessions.lookup id with
  | none => (c, false)
  | some db =>
    if db.live then (c, false)
    else
      match c.playback_ports.lookup db.port with
      | none => (c, false)
      | some info =>
        let step :
            List (ℕ × PortInfo) × Bool :=
          if info.file ≠ none ∧ info.count > 1 then
            (portsUpdate c.playback_ports db.port
              (fun i => { i with count := i.count - 1 }), false)
          else if info.file ≠ none ∧ info.count ≤ 1 then
            (portsUpdate c.playback_ports db.port (fun _ => ⟨none, 0⟩), true)
          else
            (c.playback_ports, false)
        ({ sessions := c.sessions.filter (fun p => p.1 ≠ id),
           playback_ports := step.1 }, step.2)

/-- Exit flag of a `SocketHandler` as seen by `Node.remove_socket`: set by
`Base.halt` or `Base.shutdown` (`lib.py` lines 114-131). -/
structure SockHandler where
  exit : Bool
deriving DecidableEq, Repr

/-- Node state relevant to `Node.remove_socket`: the socket registry
(`self.sockets`, `lib.py` line 596) and the `Base` exit/close flags
(`lib.py` lines 24-25). -/
structure NodeSt where
  sockets : List (String × SockHandler)
  exit : Bool
  close : Bool
deriving DecidableEq, Repr

/-- Model of `Base.shutdown` (`lib.py` lines 120-131): a no-op when both
flags are already set, otherwise `halt` (set exit) then set close.  The
condition-variable notification has no effect on this state. -/
def NodeSt.shutdown (n : NodeSt) : NodeSt :=
  if n.close ∧ n.exit then n
  else { n with exit := true, close := true }

/-- Model of `Base.throw` (`lib.py` lines 98-108): display the error message
and call `self.shutdown()`, setting both the exit and the close flag of the
node itself. -/
def NodeSt.throw (n : NodeSt) : NodeSt :=
  n.shutdown

/-- Model of `Node.remove_socket` (`lib.py` lines 604-619): unknown ids are a
debug-logged no-op; a registered handler whose exit flag is not set makes the
node `throw` (which shuts the node down) and leaves the registry untouched; a
halted handler is deleted from the registry. -/
def NodeSt.remove_socket (n : NodeSt) (socket_id : String) : NodeSt :=
  match n.sockets.lookup socket_id with
  | none => n
  | some handler =>
    if handler.exit = false then n.throw
    else { n with sockets := n.sockets.filter (fun p => p.1 ≠ socket_id) }

/-- Python list slicing `L[a:b]` with step 1 and possibly negative bounds:
negative indices count from the end, and both bounds clamp to the list. -/
def pySlice (L : List α) (a b : ℤ) : List α :=
  let n : ℤ := L.length
  let a' : ℤ := if a < 0 then max (n + a) 0 else min a n
  let b' : ℤ := if b < 0 then max (n + b) 0 else min b n
  (L.drop a'.toNat).take (b' - a').toNat

/-- State of a `GraphRingBuffer` (`lib.py` lines 1041-1056).  The
name-indexed column dictionary is modelled as a positional list of columns
(every operation applies the same index arithmetic to each column); the JSON
dump of the most recent batch and the threading lock and read events are
elided.  `head_data` is the most recent batch written, per column. -/
structure GRB where
  size : ℕ
  length : ℕ
  tail : ℕ
  head : ℕ
  data : List (List ℤ)
  head_data : List (List ℤ)
deriving DecidableEq, Repr

/-- Model of `GraphRingBuffer.__init__`: `ncols` zero-filled columns of the
given size, all indices zero. -/
def GRB.init (ncols size : ℕ) : GRB :=
  ⟨size, 0, 0, 0, List.replicate ncols (List.replicate size 0), []⟩

/-- Model of `GraphRingBuffer.move_head` (`lib.py` lines 1058-1060). -/
def GRB.move_head (g : GRB) (n : ℕ) : GRB :=
  { g with head := (g.head + n) % g.size }

/-- Model of `GraphRingBuffer.move_tail` (`lib.py` lines 1062-1064). -/
def GRB.move_tail (g : GRB) (n : ℕ) : GRB :=
  { g with tail := (g.tail + n) % g.size }

/-- Model of `GraphRingBuffer.sort` (`lib.py` lines 1066-1069): rotate every
column so the entry at index `tail` comes first. -/
def GRB.sort (g : GRB) : GRB :=
  { g with data := g.data.map (fun col => col.drop g.tail ++ col.take g.tail) }

/-- Model of `GraphRingBuffer.update` (`lib.py` lines 1071-1078): reset the
tail and recompute head and length after a `sort`. -/
def GRB.update (g : GRB) : GRB :=
  let g1 : GRB := { g with tail := 0 }
  if g1.length < g1.size then { g1 with head := g1.length }
  else { g1 with head := 0, length := g1.size }

/-- Model of `GraphRingBuffer.set_size` (`lib.py` lines 1080-1095): no-op on
an unchanged size; otherwise sort, then either truncate each column with the
slice `col[-size - extra : length]` (where `extra = self.size - self.length`
with the old size) or pad each column with zeros, then install the new size
and `update`. -/
def GRB.set_size (g : GRB) (size : ℕ) : GRB :=
  if size = g.size then g
  else
    let g1 := g.sort
    let g2 : GRB :=
      if size < g1.size then
        { g1 with data := g1.data.map (fun col =>
            pySlice col (-(size : ℤ) - ((g1.size : ℤ) - (g1.length : ℤ))) (g1.length : ℤ)) }
      else
        { g1 with data := g1.data.map (fun col =>
            col ++ List.replicate (size - g1.size) 0) }
    GRB.update { g2 with size := size }

/-- One iteration of the write loop of `GraphRingBuffer.write` (`lib.py`
lines 1115-1123): place one row at the head index of every column, advance
the head, and advance the tail (full) or grow the length (not full). -/
def GRB.writePoint (g : GRB) (row : List ℤ) : GRB :=
  let g1 : GRB := { g with data := List.zipWith (fun col x => col.set g.head x) g.data row }
  let g2 := g1.move_head 1
  if g2.size = g2.length then g2.move_tail 1
  else { g2 with length := g2.length + 1 }

/-- Model of `GraphRingBuffer.write` (`lib.py` lines 1104-1126): store the
batch as the most recent data, then write it point by point; the batch length
is read off the first column, as in
`length = len(list(data.values())[0])`. -/
def GRB.write (g : GRB) (newData : List (List ℤ)) : GRB :=
  let m := (newData.headD []).length
  let g1 : GRB := { g with head_data := newData }
  (List.range m).foldl
    (fun s i => s.writePoint (newData.map (fun col => col.getD i 0))) g1

/-- Model of the data access of `GraphRingBuffer.read` (`lib.py` lines
1128-1146): return the most recent batch.  The event-token blocking protocol
does not touch the ring state. -/
def GRB.read (g : GRB) : List (List ℤ) :=
  g.head_data

/-- Model of `GraphRingBuffer.read_all` (`lib.py` lines 1148-1163): sort the
ring chronologically, update the indices, and return the full column data
together with the mutated state. -/
def GRB.read_all (g : GRB) : List (List ℤ) × GRB :=
  let g1 := g.sort.update
  (g1.data, g1)

/-- Structural invariant of the ring buffer (claim C10): the fill level is
bounded by the size, every column holds exactly `size` cells, the head is the
tail plus the length modulo the size, and the tail is in range whenever the
size is positive. -/
def GRB.Inv (g : GRB) : Prop :=
  g.length ≤ g.size ∧
  (∀ col ∈ g.data, col.length = g.size) ∧
  g.head = (g.tail + g.length) % g.size ∧
  (0 < g.size → g.tail < g.size)

instance (g : GRB) : Decidable g.Inv := by
  unfold GRB.Inv
  exact inferInstance

/-- Byte strings of the wire protocol.  The handlers encode and decode with
latin-1 (`lib.py` line 28), which maps bytes to code points one-to-one, so a
byte string is modelled as a list of characters. -/
abbrev Bytes := List Char

/-- Characters stripped by Python's `str.strip()` (the ASCII whitespace
relevant to this protocol). -/
def isPySpace (c : Char) : Bool :=
  c = ' ' ∨ c = '\t' ∨ c = '\n' ∨ c = '\r' ∨ c = '\x0b' ∨ c = '\x0c'

/-- Model of Python `str.strip()`: drop whitespace from both ends. -/
def pyStrip (s : Bytes) : Bytes :=
  ((s.dropWhile isPySpace).reverse.dropWhile isPySpace).reverse

/-- Accumulator loop for `pySplitWS`: `cur` is the reversed token currently
being collected. -/
def pySplitWSAux (cur : Bytes) : Bytes → List Bytes
  | [] => if cur = [] then [] else [cur.reverse]
  | c :: cs =>
    if isPySpace c then
      if cur = [] then pySplitWSAux [] cs
      else cur.reverse :: pySplitWSAux [] cs
    else pySplitWSAux (c :: cur) cs

/-- Model of Python `str.split()` with no separator: split on whitespace
runs, producing no empty tokens. -/
def pySplitWS (s : Bytes) : List Bytes :=
  pySplitWSAux [] s

/-- Model of Python `line.split(sep, 1)`: split at the first occurrence of
the separator; `none` models the `ValueError` when the separator is
missing. -/
def splitFirst (sep : Char) : Bytes → Option (Bytes × Bytes)
  | [] => none
  | c :: cs =>
    if c = sep then some ([], cs)
    else
      match splitFirst sep cs with
      | none => none
      | some (a, b) => some (c :: a, b)

/-- Prefix test on byte strings (Python `str.startswith`). -/
def startsWithL : Bytes → Bytes → Bool
  | [], _ => true
  | _ :: _, [] => false
  | p :: ps, c :: cs => p = c && startsWithL ps cs

/-- Substring test on byte strings (Python `keyword in string`). -/
def containsSeq (pat : Bytes) : Bytes → Bool
  | [] => startsWithL pat []
  | c :: cs => startsWithL pat (c :: cs) || containsSeq pat cs

/-- Model of `file.readline()` on the socket stream: everything up to and
including the first newline (or the whole rest of the stream if none). -/
def readline : Bytes → Bytes × Bytes
  | [] => ([], [])
  | c :: cs =>
    if c = '\n' then ([c], cs)
    else
      let (l, r) := readline cs
      (c :: l, r)

/-- Test `data[-2:] == b'\r\n'` from `SocketHandler.read`. -/
def endsCRLF (data : Bytes) : Bool :=
  match data.reverse with
  | '\n' :: '\r' :: _ => true
  | _ => false

/-- Accumulation loop of `SocketHandler.read` in line mode (`lib.py` lines
263-270): while the data read so far does not end in CRLF, append another
`readline` and fail once the accumulated length exceeds the maximum.  The
length check sits inside the loop, so a line whose very first `readline`
already ends in CRLF is never measured.  The fuel only bounds the recursion;
an exhausted stream (`none` on empty rest) is where the source would block
forever on a dead socket. -/
def readLineAux (maxLen : ℕ) : ℕ → Bytes → Bytes → Option (Bytes × Bytes)
  | 0, _, _ => none
  | fuel + 1, data, rest =>
    if data ≠ [] ∧ endsCRLF data = false then
      match rest with
      | [] => none
      | _ :: _ =>
        let step := readline rest
        let data' := data ++ step.1
        if data'.length > maxLen then none
        else readLineAux maxLen fuel data' step.2
    else some (data, rest)

/-- Model of `SocketHandler.read` with `line=True, decode=True` (`lib.py`
lines 246-286): read one CRLF-terminated line, return it stripped of
surrounding whitespace together with the rest of the stream; `none` is the
`BrokenPipeError`-to-`shutdown` path (empty read or over-long
unterminated data). -/
def readLineMax (maxLen : ℕ) (stream : Bytes) : Option (Bytes × Bytes) :=
  let first := readline stream
  match readLineAux maxLen (stream.length + 1) first.1 first.2 with
  | none => none
  | some (d, r) => if d = [] then none else some (pyStrip d, r)

/-- Blank-line-skipping loop at the top of `SocketHandler.parse_request_line`
(`lib.py` lines 295-299): keep reading until a non-blank line arrives. -/
def readNonBlankAux (maxLen : ℕ) : ℕ → Bytes → Option (Bytes × Bytes)
  | 0, _ => none
  | fuel + 1, s =>
    match readLineMax maxLen s with
    | none => none
    | some (line, rest) =>
      if line = [] then readNonBlankAux maxLen fuel rest
      else some (line, rest)

/-- Entry point for the blank-skipping read; the fuel covers any number of
leading blank lines in the stream. -/
def readNonBlank (maxLen : ℕ) (s : Bytes) : Option (Bytes × Bytes) :=
  readNonBlankAux maxLen (s.length + 1) s

/-- Model of `SocketHandler.read` with `line=False, decode=False` (`lib.py`
lines 271-283): read exactly `len` raw bytes.  A zero-length read returns an
empty byte string, which the source treats as a disconnect
(`BrokenPipeError`); a stream shorter than `len` is where the source would
block on the socket. -/
def readExact (len : ℕ) (s : Bytes) : Option (Bytes × Bytes) :=
  if len = 0 then none
  else if len ≤ s.length then some (s.take len, s.drop len)
  else none

/-- Model of Python `int()` on a header value: digits only (the request
inputs in scope carry canonical decimal values). -/
def parseNatDigits (s : Bytes) : Option ℕ :=
  if s ≠ [] ∧ s.all Char.isDigit then
    some (s.foldl (fun n c => n * 10 + (c.toNat - '0'.toNat)) 0)
  else none

/-- Parsed request unit (`Request.__init__`, `lib.py` lines 869-885).  The
`origin` back-reference to the socket handler and the write-only
`header_received` progress flag (set at `lib.py` line 338 and never read) are
omitted; `header` and `queries` are insertion-ordered dictionaries. -/
structure Request where
  method : Option Bytes := none
  code : Option Bytes := none
  message : Option Bytes := none
  version : Bytes := "HTTP/1.1".toList
  path : Option Bytes := none
  queries : List (Bytes × Bytes) := []
  header : List (Bytes × Bytes) := []
  content : Option Bytes := none
deriving DecidableEq, Repr

/-- Python dict assignment `m[k] = v` on an insertion-ordered dictionary:
overwrite in place when the key exists, append otherwise. -/
def dictInsert (m : List (Bytes × Bytes)) (k v : Bytes) : List (Bytes × Bytes) :=
  if (m.lookup k).isSome then m.map (fun p => if p.1 = k then (k, v) else p)
  else m ++ [(k, v)]

/-- Python `dict(pairs)`: fold the pairs into an empty dictionary. -/
def dictFromPairs (ps : List (Bytes × Bytes)) : List (Bytes × Bytes) :=
  ps.foldl (fun m kv => dictInsert m kv.1 kv.2) []

/-- Model of `SocketHandler.parse_request_line` (`lib.py` lines 288-322):
skip blank lines, read the start line (maximum 256), split it into three
whitespace-separated words, and fill either the response fields (first word
starts with `HTTP/`) or the method/path/version fields, parsing `?k=v&k=v`
queries out of the path.  `none` covers the read-error, arity-error and
query-unpacking `ValueError` paths, all of which shut the handler down. -/
def parse_request_line (r : Request) (stream : Bytes) : Option (Request × Bytes) :=
  match readNonBlank 256 stream with
  | none => none
  | some (line, rest) =>
    match pySplitWS line with
    | [w0, w1, w2] =>
      if startsWithL "HTTP/".toList w0 then
        some ({ r with version := w0, code := some w1, message := some w2 }, rest)
      else
        let r1 : Request := { r with method := some w0, version := w2 }
        if w1.contains '?' then
          match w1.splitOn '?' with
          | [p, q] =>
            match (q.splitOn '&').mapM (fun pr =>
                match pr.splitOn '=' with
                | [a, b] => some ((a, b) : Bytes × Bytes)
                | _ => none) with
            | some pairs => some ({ r1 with path := some p, queries := dictFromPairs pairs }, rest)
            | none => none
          | _ => none
        else
          some ({ r1 with path := some w1 }, rest)
    | _ => none

/-- Header loop of `SocketHandler.parse_header` (`lib.py` lines 331-349):
at most 32 iterations, each reading a line of maximum 1024; a blank line ends
the headers; otherwise split at the first colon, lowercase the key and strip
the value.  Exhausting the loop without a blank line is the `Too many
headers` failure. -/
def parseHeaderAux : ℕ → Request → Bytes → Option (Request × Bytes)
  | 0, _, _ => none
  | n + 1, r, s =>
    match readLineMax 1024 s with
    | none => none
    | some (line, rest) =>
      if line = [] then some (r, rest)
      else
        match splitFirst ':' line with
        | none => none
        | some (k, v) =>
          parseHeaderAux n
            { r with header := dictInsert r.header (k.map Char.toLower) (pyStrip v) } rest

/-- Model of `SocketHandler.parse_header` (`lib.py` lines 324-350). -/
def parse_header (r : Request) (s : Bytes) : Option (Request × Bytes) :=
  parseHeaderAux 32 r s

/-- Deny-list keywords for the host header (`lib.py` line 228). -/
def host_keywords : List Bytes :=
  ["webredirect".toList, "ddnsfree".toList]

/-- Deny-list keywords for the user-agent header (`lib.py` line 229). -/
def agent_keywords : List Bytes :=
  ["nimbostratus".toList, "cloudsystemnetworks".toList, "bot".toList]

/-- Model of `SocketHandler.validate` (`lib.py` lines 223-244).  The source
builds `host_string` with a trailing comma, producing a one-element tuple, so
`keyword in host_string` is tuple membership — equality of the keyword with
the looked-up value (and the tuple is always truthy, so the check runs even
when the header is absent).  The user-agent check is genuine substring
containment on the header string. -/
def validate (r : Request) : Bool :=
  let host_string := r.header.lookup "host".toList
  let agent_string := r.header.lookup "user-agent".toList
  let hostBad := host_keywords.any (fun kw => decide (host_string = some kw))
  let agentBad :=
    match agent_string with
    | some a => decide (a ≠ []) && agent_keywords.any (fun kw => containsSeq kw a)
    | none => false
  !(hostBad || agentBad)

/-- Model of `SocketHandler.parse_content` (`lib.py` lines 352-366): when a
truthy `content-length` header is present, read exactly that many raw bytes
as the content; otherwise assume no content. -/
def parse_content (r : Request) (s : Bytes) : Option (Request × Bytes) :=
  match r.header.lookup "content-length".toList with
  | some lv =>
    if lv ≠ [] then
      match parseNatDigits lv with
      | some n =>
        match readExact n s with
        | some (c, rest) => some ({ r with content := some c }, rest)
        | none => none
      | none => none
    else some (r, s)
  | none => some (r, s)

/-- Model of `SocketHandler.parse_request` (`lib.py` lines 204-221): start
line, then headers, then the deny-list validation, then content.  A `some`
result is a fully parsed request that `_run` hands to `node.HANDLE` for
dispatch; `none` covers every path on which the handler shuts the connection
down and dispatches nothing. -/
def parse_request (stream : Bytes) : Option (Request × Bytes) :=
  match parse_request_line {} stream with
  | none => none
  | some (r1, s1) =>
    match parse_header r1 s1 with
    | none => none
    | some (r2, s2) =>
      if validate r2 = false then none
      else parse_content r2 s2

/-- CRLF line terminator. -/
def crlf : Bytes := ['\r', '\n']

/-- Python `str(x)` on an optional field: `None` prints as `"None"`. -/
def optBytes (o : Option Bytes) : Bytes :=
  o.getD "None".toList

/-- Model of `Request.format_request_line` (`lib.py` lines 937-946): `METHOD
PATH VERSION` for requests, `VERSION CODE MESSAGE` for responses.  The query
dictionary is not emitted — only `self.path` appears.  With neither a method
nor a code the source throws and returns the empty string. -/
def format_request_line (r : Request) : Bytes :=
  match r.method with
  | some m => m ++ ' ' :: optBytes r.path ++ ' ' :: r.version ++ crlf
  | none =>
    match r.code with
    | some c => r.version ++ ' ' :: c ++ ' ' :: optBytes r.message ++ crlf
    | none => []

/-- Model of `Request.format_headers` (`lib.py` lines 948-955): one
`key: value` line per header, and a closing blank line when at least one
header exists. -/
def format_headers (r : Request) : Bytes :=
  (r.header.foldl (fun acc kv => acc ++ kv.1 ++ ':' :: ' ' :: kv.2 ++ crlf) []) ++
    (if r.header = [] then [] else crlf)

/-- Model of `Request.verify` (`lib.py` lines 927-935). -/
def verify (r : Request) : Bool :=
  if r.method.isSome ∧ r.code.isSome then false
  else if r.method = none ∧ r.code = none ∧ r.header ≠ [] then false
  else true

/-- Model of `Request.get_data` (`lib.py` lines 957-971): start line, then
headers, then the content bytes, or a bare CRLF when there is no content. -/
def get_data (r : Request) : Option Bytes :=
  if verify r = false then none
  else
    some (format_request_line r ++ format_headers r ++
      (match r.content with
       | some c => c
       | none => crlf))

/-- Byte string that `str.strip()` leaves unchanged, stated on both
traversal directions so it composes with `pyStrip`. -/
def Stripped (l : Bytes) : Prop :=
  l.dropWhile isPySpace = l ∧ l.reverse.dropWhile isPySpace = l.reverse

/-- Token fit for a whitespace-separated start line: non-empty and free of
whitespace characters (in particular free of CR and LF). -/
def goodToken (t : Bytes) : Prop :=
  t ≠ [] ∧ ∀ c ∈ t, isPySpace c = false

/-- Header key surviving the parse unchanged: non-empty, free of whitespace
and colons, and already lowercase (as every key built by
`Request.add_header` is). -/
def goodKey (k : Bytes) : Prop :=
  k ≠ [] ∧ (∀ c ∈ k, isPySpace c = false ∧ c ≠ ':') ∧ k.map Char.toLower = k

/-- Header value surviving the parse unchanged: no line break, and already
stripped so `val.strip()` is the identity. -/
def goodVal (v : Bytes) : Prop :=
  '\n' ∉ v ∧ Stripped v

/-- One header line as emitted by `Request.format_headers`. -/
def renderHeader (kv : Bytes × Bytes) : Bytes :=
  kv.1 ++ ':' :: ' ' :: kv.2 ++ crlf

/-- All header lines as emitted by `Request.format_headers`, without the
closing blank line. -/
def renderHeaders (H : List (Bytes × Bytes)) : Bytes :=
  (H.map renderHeader).flatten

/-- Deny-list verdict of `validate` as a function of the header dictionary
alone (the only request field `validate` reads). -/
def validateHeaders (H : List (Bytes × Bytes)) : Bool :=
  validate { header := H }

/-- Header dictionary that the parser reproduces: at most 31 entries (the
32-iteration loop needs one further iteration for the blank line), distinct
keys, and each entry fit to survive the parse. -/
def goodHeaders (H : List (Bytes × Bytes)) : Prop :=
  H.length ≤ 31 ∧ (H.map Prod.fst).Nodup ∧
    ∀ kv ∈ H, goodKey kv.1 ∧ goodVal kv.2

instance (l : Bytes) : Decidable (Stripped l) :=
  inferInstanceAs (Decidable (_ ∧ _))

instance (t : Bytes) : Decidable (goodToken t) :=
  inferInstanceAs (Decidable (_ ∧ _))

instance (k : Bytes) : Decidable (goodKey k) :=
  inferInstanceAs (Decidable (_ ∧ _))

instance (v : Bytes) : Decidable (goodVal v) :=
  inferInstanceAs (Decidable (_ ∧ _))

instance (H : List (Bytes × Bytes)) : Decidable (goodHeaders H) :=
  inferInstanceAs (Decidable (_ ∧ _))

/-- Consistency of the content field with the `content-length` header, as
`Request.add_content` establishes: no content and no length header, or
non-empty content whose exact length the header declares. -/
def contentOK (r : Request) : Prop :=
  match r.content with
  | none => r.header.lookup "content-length".toList = none
  | some c =>
    c ≠ [] ∧ ∃ lv, r.header.lookup "content-length".toList = some lv ∧
      lv ≠ [] ∧ parseNatDigits lv = some c.length

/-- Direction consistency from the spec's data model: a request carries a
method and a path and no code, a response carries a code and a message and no
method; tokens are whitespace-free, a request method does not look like a
version, a response version does, and the request path carries no query
string. -/
def directionOK (r : Request) : Prop :=
  (∃ m p, r.method = some m ∧ r.path = some p ∧ r.code = none ∧ r.message = none ∧
    goodToken m ∧ goodToken p ∧ goodToken r.version ∧
    startsWithL "HTTP/".toList m = false ∧ '?' ∉ p) ∨
  (∃ c msg, r.method = none ∧ r.path = none ∧ r.code = some c ∧ r.message = some msg ∧
    goodToken c ∧ goodToken msg ∧ goodToken r.version ∧
    startsWithL "HTTP/".toList r.version = true)

/-- Well-formed frame for the amended round-trip claim: sound direction
fields, a reproducible header dictionary that passes the deny-list check, a
consistent content declaration, and an empty query mapping (the encoder
never emits queries). -/
def WellFormed (r : Request) : Prop :=
  directionOK r ∧ goodHeaders r.header ∧ validateHeaders r.header = true ∧
    contentOK r ∧ r.queries = []

/-- Backend oracle for the concrete `read_data` scenario: wall clock 2000 ms,
store start time 1000 ms, one data point available on the blocking fresh
read. -/
def readEnvC1 : ReadEnv :=
  ⟨2000, 1000, fun _ => [], fun _ => [], [(⟨100, none⟩, [("time", "100")])]⟩

/-- Bookmark whose lock is currently held by a concurrent reader. -/
def lockedBookmark : Bookmark :=
  { Bookmark.init with lockHeld := true }

/-- Port pool with one playback backend serving a file to two sessions. -/
def portsC9 : List (ℕ × PortInfo) :=
  [(7000, ⟨some "f.rdb", 2⟩), (7001, ⟨none, 0⟩)]

/-- Request carrying a non-empty query mapping, as produced by parsing
`GET /a?k=v HTTP/1.1`. -/
def c3Req : Request :=
  { method := some "GET".toList, path := some "/a".toList,
    queries := [("k".toList, "v".toList)] }

/-- Well-formed query-free request used to witness the amended round-trip
claim. -/
def c3WitnessReq : Request :=
  { method := some "GET".toList, path := some "/".toList,
    header := [("host".toList, "example.com".toList),
               ("content-length".toList, "3".toList)],
    content := some "abc".toList }

/-- Query-free request carrying exactly 32 distinct lowercase headers — the
spec's stated header maximum.  Its encoding occupies all 32 iterations of
the `parse_header` loop before the closing blank line is reached. -/
def c3Req32 : Request :=
  { method := some "GET".toList, path := some "/".toList,
    header := (List.range 32).map
      (fun i => ([Char.ofNat (97 + i / 26), Char.ofNat (97 + i % 26)], ['v'])) }

end Osprey

namespace Osprey

/-- Zipping two images of the same list combines pointwise. -/
theorem zipWith_map_same (k : β → γ → δ) (f : α → β) (g : α → γ) :
    ∀ l : List α, List.zipWith k (l.map f) (l.map g) = l.map (fun x => k (f x) (g x))
  | [] => rfl
  | x :: xs => by simp [zipWith_map_same k f g xs]

/-- Field-level description of one `writePoint` step. -/
theorem writePoint_spec (g : GRB) (row : List ℤ) :
    (g.writePoint row).size = g.size ∧
    (g.writePoint row).head = (g.head + 1) % g.size ∧
    (g.writePoint row).data = List.zipWith (fun col x => col.set g.head x) g.data row ∧
    (g.writePoint row).head_data = g.head_data ∧
    ((g.size = g.length ∧ (g.writePoint row).length = g.length ∧
        (g.writePoint row).tail = (g.tail + 1) % g.size) ∨
      (g.size ≠ g.length ∧ (g.writePoint row).length = g.length + 1 ∧
        (g.writePoint row).tail = g.tail)) := by
  by_cases h : g.size = g.length <;>
    simp [GRB.writePoint, GRB.move_head, GRB.move_tail, h]

/-- One `writePoint` step preserves the structural invariant. -/
theorem writePoint_inv (g : GRB) (row : List ℤ) (h : g.Inv) : (g.writePoint row).Inv := by
  obtain ⟨hlen, hcols, hhead, htail⟩ := h
  obtain ⟨hsz, hhd, hdata, _, hcase⟩ := writePoint_spec g row
  have hcols' : ∀ col ∈ (g.writePoint row).data, col.length = (g.writePoint row).size := by
    intro col hc
    rw [hdata, List.mem_iff_getElem] at hc
    obtain ⟨i, hi, hcol⟩ := hc
    rw [List.getElem_zipWith] at hcol
    rw [hsz, ← hcol, List.length_set]
    exact hcols _ (List.getElem_mem ..)
  rcases hcase with ⟨hfull, hl, ht⟩ | ⟨hnf, hl, ht⟩
  · refine ⟨by omega, hcols', ?_, ?_⟩
    · rw [hhd, ht, hl, hsz, hhead, Nat.mod_add_mod, Nat.mod_add_mod]
      congr 1
      omega
    · intro hs
      rw [hsz] at hs
      rw [ht, hsz]
      exact Nat.mod_lt _ hs
  · refine ⟨?_, hcols', ?_, ?_⟩
    · rw [hl, hsz]; omega
    · rw [hhd, ht, hl, hsz, hhead, Nat.mod_add_mod]
      congr 1
    · intro hs
      rw [hsz] at hs
      rw [ht, hsz]
      exact htail hs

/-- Folding `writePoint` over a batch of rows: the invariant is preserved,
the head advances by the number of rows modulo the size, and the length
saturates at the size. -/
theorem writePoint_foldl_spec (rows : List (List ℤ)) :
    ∀ g : GRB, g.Inv →
      (rows.foldl GRB.writePoint g).Inv ∧
      (rows.foldl GRB.writePoint g).size = g.size ∧
      (rows.foldl GRB.writePoint g).head = (g.head + rows.length) % g.size ∧
      (rows.foldl GRB.writePoint g).length = min (g.length + rows.length) g.size ∧
      (rows.foldl GRB.writePoint g).head_data = g.head_data := by
  induction rows with
  | nil =>
    intro g hg
    have hg2 := hg
    obtain ⟨hlen, -, hhead, -⟩ := hg2
    refine ⟨hg, rfl, ?_, ?_, rfl⟩
    · simp only [List.foldl_nil, List.length_nil, Nat.add_zero]
      rw [hhead]
      exact (Nat.mod_mod_of_dvd _ dvd_rfl).symm
    · simp only [List.foldl_nil, List.length_nil, Nat.add_zero]
      omega
  | cons row rows ih =>
    intro g hg
    have hg2 := hg
    obtain ⟨hlen, -, -, -⟩ := hg2
    obtain ⟨hsz, hhd, -, hhdd, hcase⟩ := writePoint_spec g row
    obtain ⟨ih1, ih2, ih3, ih4, ih5⟩ := ih (g.writePoint row) (writePoint_inv g row hg)
    rw [List.foldl_cons]
    refine ⟨ih1, by rw [ih2, hsz], ?_, ?_, by rw [ih5, hhdd]⟩
    · rw [ih3, hhd, hsz, Nat.mod_add_mod]
      congr 1
      simp only [List.length_cons]
      omega
    · rw [ih4, hsz]
      rcases hcase with ⟨hfull, hl, -⟩ | ⟨hnf, hl, -⟩ <;> rw [hl] <;>
        simp only [List.length_cons] <;> omega

/-- Batch write described at the level of `GRB.write`: invariant preserved,
head advanced by the batch length modulo the size, length saturated at the
size, and the batch recorded as the most recent data. -/
theorem write_spec (g : GRB) (nd : List (List ℤ)) (hg : g.Inv) :
    (g.write nd).Inv ∧ (g.write nd).size = g.size ∧
    (g.write nd).head = (g.head + (nd.headD []).length) % g.size ∧
    (g.write nd).length = min (g.length + (nd.headD []).length) g.size ∧
    (g.write nd).head_data = nd := by
  unfold GRB.write
  rw [← List.foldl_map (fun i => nd.map (fun col => col.getD i 0)) GRB.writePoint]
  have hg1 : ({ g with head_data := nd } : GRB).Inv := hg
  obtain ⟨h1, h2, h3, h4, h5⟩ :=
    writePoint_foldl_spec ((List.range (nd.headD []).length).map
      (fun i => nd.map (fun col => col.getD i 0))) { g with head_data := nd } hg1
  refine ⟨h1, h2, ?_, ?_, h5⟩
  · rw [h3]; simp
  · rw [h4]; simp

/-- Sorting the ring preserves the column lengths. -/
theorem sort_cols (g : GRB) (hcols : ∀ col ∈ g.data, col.length = g.size) :
    ∀ col ∈ (g.sort).data, col.length = g.size := by
  intro col hc
  simp only [GRB.sort, List.mem_map] at hc
  obtain ⟨c, hcmem, rfl⟩ := hc
  simp only [List.length_append, List.length_drop, List.length_take]
  have := hcols c hcmem
  omega

/-- Reading the whole ring preserves the structural invariant, and the
returned data is exactly the mutated state's data. -/
theorem read_all_spec (g : GRB) (hg : g.Inv) :
    (g.read_all).2.Inv ∧ (g.read_all).1 = (g.read_all).2.data := by
  obtain ⟨hlen, hcols, -, -⟩ := hg
  have hcols2 := sort_cols g hcols
  refine ⟨?_, rfl⟩
  unfold GRB.read_all GRB.update
  dsimp only [GRB.sort]
  by_cases hls : g.length < g.size
  · rw [if_pos hls]
    refine ⟨le_of_lt hls, ?_, ?_, fun h => h⟩
    · simpa [GRB.sort] using hcols2
    · rw [Nat.zero_add]
      exact (Nat.mod_eq_of_lt hls).symm
  · rw [if_neg hls]
    refine ⟨le_refl _, ?_, ?_, fun h => h⟩
    · simpa [GRB.sort] using hcols2
    · rw [Nat.zero_add, Nat.mod_self]

/-- Explicit result of `set_size` when growing past the current size. -/
theorem set_size_grow_eq (g : GRB) (k : ℕ) (hlen : g.length ≤ g.size)
    (hk : g.size < k) :
    g.set_size k =
      ⟨k, g.length, 0, g.length,
       g.data.map (fun col => (col.drop g.tail ++ col.take g.tail) ++
         List.replicate (k - g.size) 0),
       g.head_data⟩ := by
  unfold GRB.set_size GRB.update GRB.sort
  dsimp only
  rw [if_neg (show ¬ k = g.size by omega)]
  rw [if_neg (show ¬ k < g.size by omega)]
  rw [if_pos (show g.length < k by omega)]
  simp [List.map_map]

/-- Explicit result of `set_size` when shrinking to a size not above the
current fill level. -/
theorem set_size_shrink_eq (g : GRB) (k : ℕ) (hk2 : k ≤ g.length)
    (hklt : k < g.size) :
    g.set_size k =
      ⟨k, k, 0, 0,
       g.data.map (fun col => pySlice (col.drop g.tail ++ col.take g.tail)
         (-(k : ℤ) - ((g.size : ℤ) - (g.length : ℤ))) (g.length : ℤ)),
       g.head_data⟩ := by
  unfold GRB.set_size GRB.update GRB.sort
  dsimp only
  rw [if_neg (show ¬ k = g.size by omega)]
  rw [if_pos hklt]
  rw [if_neg (show ¬ g.length < k by omega)]
  simp [List.map_map]

/-- Growing the ring re-establishes the structural invariant. -/
theorem set_size_grow_inv (g : GRB) (k : ℕ) (hg : g.Inv) (hk : g.size < k) :
    (g.set_size k).Inv := by
  obtain ⟨hlen, hcols, -, -⟩ := hg
  rw [set_size_grow_eq g k hlen hk]
  refine ⟨?_, ?_, ?_, ?_⟩ <;> dsimp only
  · omega
  · intro col hc
    simp only [List.mem_map] at hc
    obtain ⟨c, hcmem, rfl⟩ := hc
    have := hcols c hcmem
    simp only [List.length_append, List.length_drop, List.length_take,
      List.length_replicate]
    omega
  · rw [Nat.zero_add]
    exact (Nat.mod_eq_of_lt (by omega)).symm
  · omega

/-- Shrinking the ring to a size between 1 and the current fill level
re-establishes the structural invariant. -/
theorem set_size_shrink_inv (g : GRB) (k : ℕ) (hg : g.Inv) (hk1 : 1 ≤ k)
    (hk2 : k ≤ g.length) : (g.set_size k).Inv := by
  have hgc := hg
  obtain ⟨hlen, hcols, -, -⟩ := hgc
  by_cases hks : k = g.size
  · rw [GRB.set_size, if_pos hks]
    exact hg
  · have hklt : k < g.size := lt_of_le_of_ne (le_trans hk2 hlen) hks
    rw [set_size_shrink_eq g k hk2 hklt]
    refine ⟨?_, ?_, ?_, ?_⟩ <;> dsimp only
    · exact le_refl _
    · intro col hc
      simp only [List.mem_map] at hc
      obtain ⟨c, hcmem, rfl⟩ := hc
      have hcl := hcols c hcmem
      unfold pySlice
      simp only [List.length_take, List.length_drop, List.length_append]
      omega
    · rw [Nat.zero_add, Nat.mod_self]
    · omega

/-- Dropping a satisfied prefix fixes a list only if its head fails the
predicate. -/
theorem head_false_of_dropWhile_eq (c : Char) (cs : Bytes)
    (h : List.dropWhile isPySpace (c :: cs) = c :: cs) : isPySpace c = false := by
  by_contra hc
  rw [List.dropWhile_cons, if_pos (by simpa using hc)] at h
  have hlen := congrArg List.length h
  have hle := (List.dropWhile_sublist (l := cs) (p := isPySpace)).length_le
  simp at hlen
  omega

/-- Strip is the identity exactly when recorded by `Stripped`. -/
theorem pyStrip_of_stripped (l : Bytes) (h : Stripped l) : pyStrip l = l := by
  unfold pyStrip
  rw [h.1, h.2, List.reverse_reverse]

/-- Stripping a leading space from an already stripped string. -/
theorem pyStrip_space_cons (w : Bytes) (hw : Stripped w) : pyStrip (' ' :: w) = w := by
  unfold pyStrip
  rw [show List.dropWhile isPySpace (' ' :: w) = List.dropWhile isPySpace w from by
    rw [List.dropWhile_cons, if_pos (by decide)]]
  rw [hw.1, hw.2, List.reverse_reverse]

/-- Stripping a string whose head and last character are not whitespace and
which ends in a run of whitespace removes exactly that run. -/
theorem pyStrip_append_ws (l ws : Bytes)
    (hh : ∀ c cs, l = c :: cs → isPySpace c = false)
    (hr : ∀ c cs, l.reverse = c :: cs → isPySpace c = false)
    (hws : ∀ c ∈ ws, isPySpace c = true) :
    pyStrip (l ++ ws) = l := by
  have hwsdrop : List.dropWhile isPySpace ws.reverse = [] := by
    rw [List.dropWhile_eq_nil_iff]
    intro c hc
    simpa using hws c (List.mem_reverse.mp hc)
  cases l with
  | nil =>
    unfold pyStrip
    have hd : List.dropWhile isPySpace ws = [] := by
      rw [List.dropWhile_eq_nil_iff]
      intro c hc
      simpa using hws c hc
    simp [hd]
  | cons c cs =>
    unfold pyStrip
    rw [List.cons_append, List.dropWhile_cons, if_neg (by simp [hh c cs rfl])]
    rw [← List.cons_append, List.reverse_append, List.dropWhile_append, hwsdrop]
    simp only [List.isEmpty_nil, if_true]
    cases hrev : (c :: cs).reverse with
    | nil => exact absurd (congrArg List.length hrev) (by simp)
    | cons d ds =>
      rw [List.dropWhile_cons, if_neg (by simp [hr d ds hrev]), ← hrev,
        List.reverse_reverse]

/-- Reading one Python line out of a stream whose first line feed ends the
prefix. -/
theorem readline_append (l rest : Bytes) (h : '\n' ∉ l) :
    readline (l ++ '\n' :: rest) = (l ++ ['\n'], rest) := by
  induction l with
  | nil => simp [readline]
  | cons c cs ih =>
    have hc : ¬ c = '\n' := fun he => h (he ▸ List.mem_cons_self c cs)
    have hcs : '\n' ∉ cs := fun hm => h (List.mem_cons_of_mem c hm)
    simp [readline, hc, ih hcs]

/-- A CRLF-terminated chunk passes the `data[-2:] == CRLF` test. -/
theorem endsCRLF_append (l : Bytes) : endsCRLF (l ++ ['\r', '\n']) = true := by
  unfold endsCRLF
  rw [List.reverse_append]
  rfl

/-- The accumulation loop stops immediately on CRLF-terminated data —
without ever consulting the length limit. -/
theorem readLineAux_stop (maxLen fuel : ℕ) (data rest : Bytes)
    (h : endsCRLF data = true) :
    readLineAux maxLen (fuel + 1) data rest = some (data, rest) := by
  simp [readLineAux, h]

/-- `SocketHandler.read` in line mode accepts any CRLF-terminated line,
of any length, and returns it stripped. -/
theorem readLineMax_crlf (maxLen : ℕ) (l rest : Bytes) (h1 : '\n' ∉ l) :
    readLineMax maxLen (l ++ '\r' :: '\n' :: rest) =
      some (pyStrip (l ++ ['\r', '\n']), rest) := by
  unfold readLineMax
  have hsplit : l ++ '\r' :: '\n' :: rest = (l ++ ['\r']) ++ '\n' :: rest := by simp
  have hnl : '\n' ∉ l ++ ['\r'] := by
    intro hm
    rcases List.mem_append.mp hm with hx | hx
    · exact h1 hx
    · simp at hx
  rw [hsplit, readline_append _ _ hnl]
  dsimp only
  have hdata : (l ++ ['\r']) ++ ['\n'] = l ++ ['\r', '\n'] := by simp
  rw [hdata, readLineAux_stop _ _ _ _ (endsCRLF_append l)]
  dsimp only
  rw [if_neg (by simp)]

/-- The split accumulator consumes a whitespace-free chunk whole. -/
theorem pySplitWSAux_token (t : Bytes) (ht : ∀ c ∈ t, isPySpace c = false) :
    ∀ cur rest, pySplitWSAux cur (t ++ rest) = pySplitWSAux (t.reverse ++ cur) rest := by
  induction t with
  | nil => intro cur rest; simp
  | cons c cs ih =>
    intro cur rest
    have hc : isPySpace c = false := ht c (List.mem_cons_self c cs)
    rw [List.cons_append]
    rw [show pySplitWSAux cur (c :: (cs ++ rest)) =
      pySplitWSAux (c :: cur) (cs ++ rest) from by simp [pySplitWSAux, hc]]
    rw [ih (fun x hx => ht x (List.mem_cons_of_mem c hx)) (c :: cur) rest]
    congr 1
    simp

/-- The split accumulator flushes the current token at a space. -/
theorem pySplitWSAux_space (cur rest : Bytes) :
    pySplitWSAux cur (' ' :: rest) =
      if cur = [] then pySplitWSAux [] rest
      else cur.reverse :: pySplitWSAux [] rest := by
  simp [pySplitWSAux, show isPySpace ' ' = true from rfl]

/-- A single whitespace-free token splits to itself. -/
theorem pySplitWS_single (t : Bytes) (ht : goodToken t) : pySplitWS t = [t] := by
  obtain ⟨hne, hall⟩ := ht
  unfold pySplitWS
  rw [show t = t ++ [] from by simp, pySplitWSAux_token t hall [] []]
  simp [pySplitWSAux, hne]

/-- Three space-separated tokens split to the three-element list the parser
expects. -/
theorem pySplitWS_three (m p v : Bytes) (hm : goodToken m) (hp : goodToken p)
    (hv : goodToken v) : pySplitWS (m ++ ' ' :: p ++ ' ' :: v) = [m, p, v] := by
  unfold pySplitWS
  rw [show m ++ ' ' :: p ++ ' ' :: v = m ++ (' ' :: (p ++ ' ' :: v)) from by simp]
  rw [pySplitWSAux_token m hm.2 [] _, List.append_nil, pySplitWSAux_space,
    if_neg (by simp [hm.1]), List.reverse_reverse]
  rw [show p ++ ' ' :: v = p ++ (' ' :: v) from rfl]
  rw [pySplitWSAux_token p hp.2 [] _, List.append_nil, pySplitWSAux_space,
    if_neg (by simp [hp.1]), List.reverse_reverse]
  rw [show v = v ++ [] from by simp, pySplitWSAux_token v hv.2 [] []]
  simp [pySplitWSAux, hv.1]

/-- Splitting a header line at its first colon. -/
theorem splitFirst_append (k rest : Bytes) (hk : ':' ∉ k) :
    splitFirst ':' (k ++ ':' :: rest) = some (k, rest) := by
  induction k with
  | nil => simp [splitFirst]
  | cons c cs ih =>
    have hc : ¬ c = ':' := fun he => hk (he ▸ List.mem_cons_self c cs)
    simp [splitFirst, hc, ih (fun hm => hk (List.mem_cons_of_mem c hm))]

/-- Absence turns into a false `contains`. -/
theorem contains_eq_false (l : Bytes) (a : Char) (h : a ∉ l) :
    l.contains a = false := by
  simpa using h

/-- The head of a compound line starting with a good token is not
whitespace. -/
theorem head_nonspace_append (m X : Bytes) (hne : m ≠ [])
    (hall : ∀ c ∈ m, isPySpace c = false) :
    ∀ c cs, m ++ X = c :: cs → isPySpace c = false := by
  cases m with
  | nil => exact absurd rfl hne
  | cons a as =>
    intro c cs he
    rw [List.cons_append] at he
    obtain ⟨rfl, -⟩ := List.cons.injEq .. ▸ he
    exact hall a (List.mem_cons_self a as)

/-- The last character of a compound line ending in a chunk with a
non-whitespace last character is not whitespace. -/
theorem revhead_nonspace_append (X v : Bytes) (hne : v ≠ [])
    (hrev : ∀ c cs, v.reverse = c :: cs → isPySpace c = false) :
    ∀ c cs, (X ++ v).reverse = c :: cs → isPySpace c = false := by
  intro c cs he
  rw [List.reverse_append] at he
  cases hv : v.reverse with
  | nil => exact absurd (by simpa using congrArg List.length hv) hne
  | cons d ds =>
    rw [hv, List.cons_append] at he
    obtain ⟨rfl, -⟩ := List.cons.injEq .. ▸ he
    exact hrev d ds hv

/-- A stripped non-empty string has a non-whitespace last character. -/
theorem stripped_revhead (v : Bytes) (hv : Stripped v) :
    ∀ c cs, v.reverse = c :: cs → isPySpace c = false := by
  intro c cs he
  have h2 := hv.2
  rw [he] at h2
  exact head_false_of_dropWhile_eq c cs h2

/-- A whitespace-free token has a non-whitespace last character. -/
theorem token_revhead (v : Bytes) (hall : ∀ c ∈ v, isPySpace c = false) :
    ∀ c cs, v.reverse = c :: cs → isPySpace c = false := by
  intro c cs he
  refine hall c ?_
  have : c ∈ v.reverse := by rw [he]; exact List.mem_cons_self c cs
  exact List.mem_reverse.mp this

/-- No line feed occurs in a start line made of good tokens. -/
theorem no_lf_three (m p v : Bytes) (hm : ∀ c ∈ m, isPySpace c = false)
    (hp : ∀ c ∈ p, isPySpace c = false) (hv : ∀ c ∈ v, isPySpace c = false) :
    '\n' ∉ m ++ ' ' :: p ++ ' ' :: v := by
  intro hmem
  rcases List.mem_append.mp hmem with hx | hx
  · rcases List.mem_append.mp hx with hy | hy
    · exact absurd (hm _ hy) (by decide)
    · rcases List.mem_cons.mp hy with he | hy
      · exact absurd he (by decide)
      · exact absurd (hp _ hy) (by decide)
  · rcases List.mem_cons.mp hx with he | hy
    · exact absurd he (by decide)
    · exact absurd (hv _ hy) (by decide)

/-- A start line of three good tokens is read and stripped intact. -/
theorem readLineMax_tokens (maxLen : ℕ) (m p v rest : Bytes) (hm : goodToken m)
    (hp : goodToken p) (hv : goodToken v) :
    readLineMax maxLen ((m ++ ' ' :: p ++ ' ' :: v) ++ '\r' :: '\n' :: rest) =
      some (m ++ ' ' :: p ++ ' ' :: v, rest) := by
  have hh : ∀ c cs, m ++ ' ' :: p ++ ' ' :: v = c :: cs → isPySpace c = false := by
    have : m ++ ' ' :: p ++ ' ' :: v = m ++ (' ' :: p ++ ' ' :: v) := by simp
    rw [this]
    exact head_nonspace_append m _ hm.1 hm.2
  have hr : ∀ c cs, (m ++ ' ' :: p ++ ' ' :: v).reverse = c :: cs →
      isPySpace c = false := by
    have : m ++ ' ' :: p ++ ' ' :: v = (m ++ ' ' :: p ++ [' ']) ++ v := by simp
    rw [this]
    exact revhead_nonspace_append _ v hv.1 (token_revhead v hv.2)
  rw [readLineMax_crlf maxLen _ rest (no_lf_three m p v hm.2 hp.2 hv.2)]
  rw [pyStrip_append_ws (m ++ ' ' :: p ++ ' ' :: v) ['\r', '\n'] hh hr (by decide)]

/-- Model of the request branch of `parse_request_line` applied to an
encoded start line: method, path and version are recovered, and an empty
query mapping stays empty. -/
theorem parse_request_line_request (r : Request) (m p v rest : Bytes)
    (hm : goodToken m) (hp : goodToken p) (hv : goodToken v)
    (hhttp : startsWithL "HTTP/".toList m = false) (hq : '?' ∉ p) :
    parse_request_line r ((m ++ ' ' :: p ++ ' ' :: v) ++ '\r' :: '\n' :: rest) =
      some ({ r with method := some m, version := v, path := some p }, rest) := by
  unfold parse_request_line readNonBlank
  rw [show readNonBlankAux 256
      (((m ++ ' ' :: p ++ ' ' :: v) ++ '\r' :: '\n' :: rest).length + 1)
      ((m ++ ' ' :: p ++ ' ' :: v) ++ '\r' :: '\n' :: rest) =
    some (m ++ ' ' :: p ++ ' ' :: v, rest) from by
      rw [readNonBlankAux, readLineMax_tokens 256 m p v rest hm hp hv]
      simp [hm.1]]
  dsimp only
  rw [pySplitWS_three m p v hm hp hv]
  dsimp only
  simp only [hhttp, contains_eq_false p '?' hq, Bool.false_eq_true, if_false]

/-- Model of the response branch of `parse_request_line` applied to an
encoded status line. -/
theorem parse_request_line_response (r : Request) (v c msg rest : Bytes)
    (hv : goodToken v) (hc : goodToken c) (hmsg : goodToken msg)
    (hhttp : startsWithL "HTTP/".toList v = true) :
    parse_request_line r ((v ++ ' ' :: c ++ ' ' :: msg) ++ '\r' :: '\n' :: rest) =
      some ({ r with version := v, code := some c, message := some msg }, rest) := by
  unfold parse_request_line readNonBlank
  rw [show readNonBlankAux 256
      (((v ++ ' ' :: c ++ ' ' :: msg) ++ '\r' :: '\n' :: rest).length + 1)
      ((v ++ ' ' :: c ++ ' ' :: msg) ++ '\r' :: '\n' :: rest) =
    some (v ++ ' ' :: c ++ ' ' :: msg, rest) from by
      rw [readNonBlankAux, readLineMax_tokens 256 v c msg rest hv hc hmsg]
      simp [hv.1]]
  dsimp only
  rw [pySplitWS_three v c msg hv hc hmsg]
  dsimp only
  simp only [hhttp, if_true]

/-- One rendered header line advances the header loop by one dictionary
insertion. -/
theorem parseHeaderAux_cons (nn : ℕ) (r : Request) (k w rest : Bytes)
    (hk : goodKey k) (hw : goodVal w) :
    parseHeaderAux (nn + 1) r ((k ++ ':' :: ' ' :: w) ++ '\r' :: '\n' :: rest) =
      parseHeaderAux nn { r with header := dictInsert r.header k w } rest := by
  have hkne : k ≠ [] := hk.1
  have hkns : ∀ c ∈ k, isPySpace c = false := fun c hc => (hk.2.1 c hc).1
  have hkncolon : ':' ∉ k := fun hc => (hk.2.1 ':' hc).2 rfl
  have hnl : '\n' ∉ k ++ ':' :: ' ' :: w := by
    intro hmem
    rcases List.mem_append.mp hmem with hx | hx
    · exact absurd (hkns _ hx) (by decide)
    · rcases List.mem_cons.mp hx with he | hx
      · exact absurd he (by decide)
      · rcases List.mem_cons.mp hx with he | hx
        · exact absurd he (by decide)
        · exact hw.1 hx
  rw [parseHeaderAux, readLineMax_crlf 1024 _ rest hnl]
  cases hwv : w with
  | nil =>
    have hline : pyStrip ((k ++ ':' :: ' ' :: ([] : Bytes)) ++ ['\r', '\n']) =
        k ++ [':'] := by
      have hsh : (k ++ ':' :: ' ' :: ([] : Bytes)) ++ ['\r', '\n'] =
          (k ++ [':']) ++ [' ', '\r', '\n'] := by simp
      rw [hsh]
      exact pyStrip_append_ws (k ++ [':']) [' ', '\r', '\n']
        (head_nonspace_append k _ hkne hkns)
        (revhead_nonspace_append k [':'] (by simp)
          (by intro c cs he; simp at he; rw [← he.1]; rfl))
        (by decide)
    rw [hline]
    dsimp only
    rw [if_neg (by simp [hkne])]
    rw [show splitFirst ':' (k ++ [':']) = some (k, []) from by
      have : k ++ [':'] = k ++ ':' :: ([] : Bytes) := rfl
      rw [this]
      exact splitFirst_append k [] hkncolon]
    dsimp only
    rw [hk.2.2]
    rfl
  | cons d ds =>
    have hline : pyStrip ((k ++ ':' :: ' ' :: (d :: ds)) ++ ['\r', '\n']) =
        k ++ ':' :: ' ' :: (d :: ds) := by
      refine pyStrip_append_ws _ ['\r', '\n']
        (head_nonspace_append k _ hkne hkns) ?_ (by decide)
      have hsh : k ++ ':' :: ' ' :: (d :: ds) = (k ++ [':', ' ']) ++ (d :: ds) := by
        simp
      rw [hsh]
      exact revhead_nonspace_append _ (d :: ds) (by simp)
        (stripped_revhead (d :: ds) (hwv ▸ hw.2))
    rw [hline]
    dsimp only
    rw [if_neg (by simp [hkne])]
    rw [show splitFirst ':' (k ++ ':' :: ' ' :: (d :: ds)) =
      some (k, ' ' :: (d :: ds)) from splitFirst_append k _ hkncolon]
    dsimp only
    rw [hk.2.2, pyStrip_space_cons (d :: ds) (hwv ▸ hw.2)]

/-- Consuming a whole rendered header block followed by the blank line: the
loop folds every header into the dictionary, provided the loop budget
exceeds the header count. -/
theorem parseHeaderAux_all (H : List (Bytes × Bytes)) :
    ∀ (nn : ℕ) (r : Request) (tail : Bytes), H.length < nn →
      (∀ kv ∈ H, goodKey kv.1 ∧ goodVal kv.2) →
      parseHeaderAux nn r (renderHeaders H ++ '\r' :: '\n' :: tail) =
        some ({ r with
          header := H.foldl (fun mm kv => dictInsert mm kv.1 kv.2) r.header }, tail) := by
  induction H with
  | nil =>
    intro nn r tail hn hgood
    cases nn with
    | zero => omega
    | succ n' =>
      rw [show renderHeaders [] ++ '\r' :: '\n' :: tail =
        ([] : Bytes) ++ '\r' :: '\n' :: tail from by simp [renderHeaders]]
      rw [parseHeaderAux, readLineMax_crlf 1024 [] tail (by simp)]
      rw [show pyStrip (([] : Bytes) ++ ['\r', '\n']) = [] from by decide]
      simp [List.foldl_nil]
  | cons kv H' ih =>
    intro nn r tail hn hgood
    cases nn with
    | zero => simp at hn
    | succ n' =>
      obtain ⟨hk, hw⟩ := hgood kv (List.mem_cons_self ..)
      rw [show renderHeaders (kv :: H') ++ '\r' :: '\n' :: tail =
        (kv.1 ++ ':' :: ' ' :: kv.2) ++ '\r' :: '\n' ::
          (renderHeaders H' ++ '\r' :: '\n' :: tail) from by
        simp [renderHeaders, renderHeader, crlf]]
      rw [parseHeaderAux_cons n' r kv.1 kv.2 _ hk hw]
      rw [ih n' _ _ (by simpa using hn) (fun x hx => hgood x (List.mem_cons_of_mem kv hx))]
      simp

/-- Keys absent from a dictionary look up to nothing. -/
theorem lookup_eq_none_keys (a : Bytes) :
    ∀ l : List (Bytes × Bytes), a ∉ l.map Prod.fst → l.lookup a = none
  | [], _ => rfl
  | (k, v) :: t, h => by
    have hak : (a == k) = false :=
      beq_eq_false_iff_ne.mpr (fun he => h (by simp [he]))
    have ht : a ∉ t.map Prod.fst := fun hm => h (by simp [hm])
    simp [List.lookup, hak, lookup_eq_none_keys a t ht]

/-- Folding fresh distinct-keyed pairs into a dictionary appends them in
order. -/
theorem foldl_dictInsert_fresh :
    ∀ (H mm : List (Bytes × Bytes)), (H.map Prod.fst).Nodup →
      (∀ a ∈ H.map Prod.fst, a ∉ mm.map Prod.fst) →
      H.foldl (fun acc kv => dictInsert acc kv.1 kv.2) mm = mm ++ H
  | [], mm => by simp
  | (k, v) :: t, mm => fun hnd hdisj => by
    rw [List.foldl_cons]
    have hkfresh : mm.lookup k = none :=
      lookup_eq_none_keys k mm (hdisj k (by simp))
    rw [show dictInsert mm k v = mm ++ [(k, v)] from by
      simp [dictInsert, hkfresh]]
    rw [List.map_cons] at hnd
    obtain ⟨hknot, hnd'⟩ := List.nodup_cons.mp hnd
    rw [foldl_dictInsert_fresh t (mm ++ [(k, v)]) hnd' ?_]
    · simp
    · intro a ha hmem
      rw [List.map_append] at hmem
      rcases List.mem_append.mp hmem with hx | hx
      · exact hdisj a (by simp [ha]) hx
      · simp at hx
        exact hknot (hx ▸ ha)

/-- Encoded headers are the rendered header lines plus the closing blank
line. -/
theorem format_headers_eq (r : Request) :
    format_headers r =
      renderHeaders r.header ++ (if r.header = [] then [] else crlf) := by
  unfold format_headers
  congr 1
  have haux : ∀ (H : List (Bytes × Bytes)) (acc : Bytes),
      H.foldl (fun a kv => a ++ kv.1 ++ ':' :: ' ' :: kv.2 ++ crlf) acc =
        acc ++ renderHeaders H := by
    intro H
    induction H with
    | nil => intro acc; simp [renderHeaders]
    | cons kv t ih =>
      intro acc
      rw [List.foldl_cons, ih]
      simp [renderHeaders, renderHeader]
  simpa using haux r.header []

/-- The deny-list check reads only the header dictionary. -/
theorem validate_eq_validateHeaders (r : Request) :
    validate r = validateHeaders r.header := rfl

/-- Tail of `parse_request` after the start line: headers, deny-list check
and content all succeed on the encoder's output and reproduce the header
dictionary and the content. -/
theorem parse_after_line (r1 : Request) (H : List (Bytes × Bytes))
    (cont : Option Bytes) (hh1 : r1.header = []) (hc1 : r1.content = none)
    (hcount : H.length ≤ 31) (hnodup : (H.map Prod.fst).Nodup)
    (hgood : ∀ kv ∈ H, goodKey kv.1 ∧ goodVal kv.2)
    (hval : validateHeaders H = true)
    (hcontOK : match cont with
      | none => H.lookup "content-length".toList = none
      | some c =>
        c ≠ [] ∧ ∃ lv, H.lookup "content-length".toList = some lv ∧ lv ≠ [] ∧
          parseNatDigits lv = some c.length) :
    ∃ rest,
      (match parse_header r1 ((renderHeaders H ++ (if H = [] then [] else crlf)) ++
          (match cont with | some c => c | none => crlf)) with
       | none => none
       | some (r2, s2) => if validate r2 = false then none else parse_content r2 s2) =
        some ({ r1 with header := H, content := cont }, rest) := by
  have hfold : H.foldl (fun mm kv => dictInsert mm kv.1 kv.2) r1.header = H := by
    rw [hh1]
    simpa using foldl_dictInsert_fresh H [] hnodup (by simp)
  by_cases hHe : H = []
  · subst hHe
    cases cont with
    | some c =>
      exfalso
      obtain ⟨-, lv, hlv, -⟩ := hcontOK
      simp [List.lookup] at hlv
    | none =>
      refine ⟨[], ?_⟩
      rw [show (renderHeaders [] ++ (if ([] : List (Bytes × Bytes)) = [] then [] else crlf)) ++
          (match (none : Option Bytes) with | some c => c | none => crlf) =
        renderHeaders [] ++ '\r' :: '\n' :: [] from by simp [crlf]]
      unfold parse_header
      rw [parseHeaderAux_all [] 32 r1 [] (by omega) (by simp)]
      dsimp only [List.foldl_nil]
      rw [hh1]
      rw [show validate { r1 with header := ([] : List (Bytes × Bytes)) } = true from hval]
      simp only [Bool.true_eq_false, if_false]
      unfold parse_content
      dsimp only
      rw [show List.lookup "content-length".toList ([] : List (Bytes × Bytes)) = none from rfl]
      rw [hc1]
  · cases cont with
    | none =>
      refine ⟨crlf, ?_⟩
      rw [show (renderHeaders H ++ (if H = [] then [] else crlf)) ++
          (match (none : Option Bytes) with | some c => c | none => crlf) =
        renderHeaders H ++ '\r' :: '\n' :: crlf from by
        rw [if_neg hHe]; simp [crlf]]
      unfold parse_header
      rw [parseHeaderAux_all H 32 r1 crlf (by omega) hgood]
      dsimp only
      rw [hfold]
      rw [show validate { r1 with header := H } = true from hval]
      simp only [Bool.true_eq_false, if_false]
      unfold parse_content
      dsimp only
      rw [show List.lookup "content-length".toList H = none from hcontOK]
      rw [hc1]
    | some c =>
      obtain ⟨hcne, lv, hlv, hlvne, hlvparse⟩ := hcontOK
      refine ⟨[], ?_⟩
      rw [show (renderHeaders H ++ (if H = [] then [] else crlf)) ++
          (match (some c : Option Bytes) with | some c => c | none => crlf) =
        renderHeaders H ++ '\r' :: '\n' :: c from by
        rw [if_neg hHe]; simp [crlf]]
      unfold parse_header
      rw [parseHeaderAux_all H 32 r1 c (by omega) hgood]
      dsimp only
      rw [hfold]
      rw [show validate { r1 with header := H } = true from hval]
      simp only [Bool.true_eq_false, if_false]
      unfold parse_content
      dsimp only
      rw [hlv]
      dsimp only
      rw [if_pos (by simpa using hlvne), hlvparse]
      dsimp only
      rw [show readExact c.length c = some (c, []) from by
        unfold readExact
        rw [if_neg (by simpa using hcne), if_pos (le_refl _)]
        rw [List.take_length, List.drop_length]]

/-- C3 amended: for every well-formed request or response with an empty
query mapping, decoding the encoder's output reproduces the frame exactly
(header keys are already lowercase in a well-formed frame, as
`Request.add_header` lowercases on insertion).  The query restriction is
forced by the counterexample: `format_request_line` never emits the query
mapping. -/
theorem c3_roundtrip_without_queries (r : Request) (h : WellFormed r) :
    ∃ s rest, get_data r = some s ∧ parse_request s = some (r, rest) := by
  obtain ⟨hdir, ⟨hcount, hnodup, hgood⟩, hval, hcont, hq⟩ := h
  obtain ⟨rm, rc, rmsg, rv, rp, rq, rh, rcont⟩ := r
  dsimp only at hdir hq hcont hval hcount hnodup hgood
  rcases hdir with ⟨m, p, hm, hp, hcode, hmsg, htm, htp, htv, hhttp, hqp⟩ |
    ⟨cc, mm, hm0, hp0, hcc, hmm, htc, htmsg, htv, hhttpv⟩
  · subst hm hp hcode hmsg hq
    dsimp only at htv
    have hverify :
        verify ⟨some m, none, none, rv, some p, [], rh, rcont⟩ = true := by
      simp [verify]
    cases rcont with
    | none =>
      dsimp only [contentOK] at hcont
      have hs : get_data ⟨some m, none, none, rv, some p, [], rh, none⟩ =
          some ((m ++ ' ' :: p ++ ' ' :: rv) ++ '\r' :: '\n' ::
            ((renderHeaders rh ++ (if rh = [] then [] else crlf)) ++ crlf)) := by
        rw [get_data, hverify]
        simp only [Bool.true_eq_false, if_false]
        rw [format_headers_eq]
        dsimp only [format_request_line, optBytes, Option.getD]
        simp [crlf]
      obtain ⟨rest, hrest⟩ := parse_after_line
        ⟨some m, none, none, rv, some p, [], [], none⟩ rh none rfl rfl
        hcount hnodup hgood hval hcont
      refine ⟨_, rest, hs, ?_⟩
      unfold parse_request
      rw [parse_request_line_request {} m p rv _ htm htp htv hhttp hqp]
      dsimp only
      exact hrest
    | some c =>
      dsimp only [contentOK] at hcont
      have hs : get_data ⟨some m, none, none, rv, some p, [], rh, some c⟩ =
          some ((m ++ ' ' :: p ++ ' ' :: rv) ++ '\r' :: '\n' ::
            ((renderHeaders rh ++ (if rh = [] then [] else crlf)) ++ c)) := by
        rw [get_data, hverify]
        simp only [Bool.true_eq_false, if_false]
        rw [format_headers_eq]
        dsimp only [format_request_line, optBytes, Option.getD]
        simp [crlf]
      obtain ⟨rest, hrest⟩ := parse_after_line
        ⟨some m, none, none, rv, some p, [], [], none⟩ rh (some c) rfl rfl
        hcount hnodup hgood hval hcont
      refine ⟨_, rest, hs, ?_⟩
      unfold parse_request
      rw [parse_request_line_request {} m p rv _ htm htp htv hhttp hqp]
      dsimp only
      exact hrest
  · subst hm0 hp0 hcc hmm hq
    dsimp only at htv
    have hverify :
        verify ⟨none, some cc, some mm, rv, none, [], rh, rcont⟩ = true := by
      simp [verify]
    cases rcont with
    | none =>
      dsimp only [contentOK] at hcont
      have hs : get_data ⟨none, some cc, some mm, rv, none, [], rh, none⟩ =
          some ((rv ++ ' ' :: cc ++ ' ' :: mm) ++ '\r' :: '\n' ::
            ((renderHeaders rh ++ (if rh = [] then [] else crlf)) ++ crlf)) := by
        rw [get_data, hverify]
        simp only [Bool.true_eq_false, if_false]
        rw [format_headers_eq]
        dsimp only [format_request_line, optBytes, Option.getD]
        simp [crlf]
      obtain ⟨rest, hrest⟩ := parse_after_line
        ⟨none, some cc, some mm, rv, none, [], [], none⟩ rh none rfl rfl
        hcount hnodup hgood hval hcont
      refine ⟨_, rest, hs, ?_⟩
      unfold parse_request
      rw [parse_request_line_response {} rv cc mm _ htv htc htmsg hhttpv]
      dsimp only
      exact hrest
    | some c =>
      dsimp only [contentOK] at hcont
      have hs : get_data ⟨none, some cc, some mm, rv, none, [], rh, some c⟩ =
          some ((rv ++ ' ' :: cc ++ ' ' :: mm) ++ '\r' :: '\n' ::
            ((renderHeaders rh ++ (if rh = [] then [] else crlf)) ++ c)) := by
        rw [get_data, hverify]
        simp only [Bool.true_eq_false, if_false]
        rw [format_headers_eq]
        dsimp only [format_request_line, optBytes, Option.getD]
        simp [crlf]
      obtain ⟨rest, hrest⟩ := parse_after_line
        ⟨none, some cc, some mm, rv, none, [], [], none⟩ rh (some c) rfl rfl
        hcount hnodup hgood hval hcont
      refine ⟨_, rest, hs, ?_⟩
      unfold parse_request
      rw [parse_request_line_response {} rv cc mm _ htv htc htmsg hhttpv]
      dsimp only
      exact hrest

/-- Slicing with a negative start inside the list and a stop within range is
a drop followed by a take. -/
theorem pySlice_neg_take (L : List ℤ) (a b : ℤ) (ha : a < 0) (hb : 0 ≤ b)
    (h1 : 0 ≤ (L.length : ℤ) + a) (h2 : b ≤ (L.length : ℤ)) :
    pySlice L a b =
      (L.drop ((L.length : ℤ) + a).toNat).take (b - ((L.length : ℤ) + a)).toNat := by
  unfold pySlice
  dsimp only
  rw [if_pos ha, if_neg (by omega), max_eq_left h1, min_eq_left h2]

/-- Writing the first `j` rows of a batch into a freshly zero-filled ring
fills each column's prefix in order. -/
theorem write_loop_fresh (nd : List (List ℤ)) (n sz : ℕ)
    (hcols : ∀ col ∈ nd, col.length = n) (hn : n ≤ sz) :
    ∀ j, j ≤ n →
      (List.range j).foldl
        (fun s i => GRB.writePoint s (nd.map (fun col => col.getD i 0)))
        (⟨sz, 0, 0, 0, nd.map (fun _ => List.replicate sz 0), nd⟩ : GRB) =
      (⟨sz, j, 0, j % sz,
        nd.map (fun col => col.take j ++ List.replicate (sz - j) 0), nd⟩ : GRB) := by
  intro j
  induction j with
  | zero =>
    intro _
    simp
  | succ j ih =>
    intro hj1
    have hjn : j < n := hj1
    have hjsz : j < sz := lt_of_lt_of_le hjn hn
    rw [List.range_succ, List.foldl_append, ih (le_of_lt hjn),
      List.foldl_cons, List.foldl_nil]
    unfold GRB.writePoint GRB.move_head GRB.move_tail
    dsimp only
    rw [if_neg (show ¬ sz = j by omega)]
    have hhead : j % sz = j := Nat.mod_eq_of_lt hjsz
    rw [hhead]
    rw [zipWith_map_same (fun col x => col.set j x)
      (fun col => col.take j ++ List.replicate (sz - j) 0)
      (fun col => col.getD j 0) nd]
    simp only [GRB.mk.injEq, Nat.mod_add_mod, and_true, true_and]
    apply List.map_congr_left
    intro col hc
    have hcl : col.length = n := hcols col hc
    have hjc : j < col.length := by omega
    rw [List.getD_eq_getElem col 0 hjc]
    have ht : (col.take j).length = j := by simp; omega
    rw [List.set_append, if_neg (by rw [ht]; omega), ht, Nat.sub_self]
    have hrep : List.replicate (sz - j) (0 : ℤ) = 0 :: List.replicate (sz - (j + 1)) 0 := by
      have : sz - j = (sz - (j + 1)) + 1 := by omega
      rw [this, List.replicate_succ]
    rw [hrep, List.set_cons_zero]
    have htake : col.take (j + 1) = col.take j ++ [col[j]] := by
      rw [List.take_succ]
      simp [List.getElem?_eq_getElem hjc]
    rw [htake, List.append_assoc, List.singleton_append]

/-- Writing a batch of `n ≤ size` rows into a fresh ring leaves each column
holding its batch data followed by zero padding. -/
theorem write_fresh (sz n ncols : ℕ) (nd : List (List ℤ))
    (hnd : nd.length = ncols) (hne : nd ≠ [])
    (hcols : ∀ col ∈ nd, col.length = n) (hn : n ≤ sz) :
    (GRB.init ncols sz).write nd =
      ⟨sz, n, 0, n % sz, nd.map (fun col => col ++ List.replicate (sz - n) 0),
       nd⟩ := by
  have hm : (nd.headD []).length = n := by
    cases nd with
    | nil => exact absurd rfl hne
    | cons c cs => exact hcols c (List.mem_cons_self ..)
  unfold GRB.write GRB.init
  dsimp only
  rw [hm]
  have hdat :
      ({ size := sz, length := 0, tail := 0, head := 0,
         data := List.replicate ncols (List.replicate sz (0 : ℤ)),
         head_data := nd } : GRB) =
      ⟨sz, 0, 0, 0, nd.map (fun _ => List.replicate sz 0), nd⟩ := by
    rw [List.map_const', hnd]
  rw [hdat, write_loop_fresh nd n sz hcols hn n (le_refl n)]
  simp only [GRB.mk.injEq, true_and, and_true]
  apply List.map_congr_left
  intro col hc
  rw [show col.take n = col from by rw [← hcols col hc]; exact List.take_length col]

/-- A constant repetition of a non-whitespace character is already
stripped. -/
theorem stripped_replicate (n : ℕ) (c : Char) (hc : isPySpace c = false) :
    Stripped (List.replicate n c) := by
  constructor
  · cases n with
    | zero => rfl
    | succ k =>
      rw [List.replicate_succ, List.dropWhile_cons, if_neg (by simp [hc])]
  · rw [List.reverse_replicate]
    cases n with
    | zero => rfl
    | succ k =>
      rw [List.replicate_succ, List.dropWhile_cons, if_neg (by simp [hc])]

/-- Prefix matching fails on a head mismatch. -/
theorem startsWithL_cons_ne (p c : Char) (ps cs : Bytes) (h : p ≠ c) :
    startsWithL (p :: ps) (c :: cs) = false := by
  simp [startsWithL, h]

/-- With fewer loop iterations left than rendered header lines, the header
loop exhausts its fuel and the parse fails. -/
theorem parseHeaderAux_overflow (H : List (Bytes × Bytes)) :
    ∀ (nn : ℕ) (r : Request) (tail : Bytes), nn ≤ H.length →
      (∀ kv ∈ H, goodKey kv.1 ∧ goodVal kv.2) →
      parseHeaderAux nn r (renderHeaders H ++ '\r' :: '\n' :: tail) = none := by
  induction H with
  | nil =>
    intro nn r tail hn _
    have : nn = 0 := Nat.le_zero.mp hn
    subst this
    rfl
  | cons kv H' ih =>
    intro nn r tail hn hgood
    cases nn with
    | zero => rfl
    | succ n' =>
      obtain ⟨hk, hw⟩ := hgood kv (List.mem_cons_self ..)
      rw [show renderHeaders (kv :: H') ++ '\r' :: '\n' :: tail =
        (kv.1 ++ ':' :: ' ' :: kv.2) ++ '\r' :: '\n' ::
          (renderHeaders H' ++ '\r' :: '\n' :: tail) from by
        simp [renderHeaders, renderHeader, crlf]]
      rw [parseHeaderAux_cons n' r kv.1 kv.2 _ hk hw]
      exact ih n' _ tail (by simpa using hn)
        (fun x hx => hgood x (List.mem_cons_of_mem kv hx))

/-- C1: the claim says `read_data` returns `None` immediately when the
bookmark lock is already held (leaving the bookmark untouched), that of two
concurrent calls the one holding the lock is the one that reads, and that
every path that acquired the lock releases it.  The source inverts the test
(`if bookmark.lock(block=False): return`): on a free lock the call acquires
it, returns `None` without reading, and never releases; on a held lock the
call proceeds, reads, mutates the bookmark without any exclusion, and
releases the other caller's lock. -/
theorem c1_read_data_lock_logic_inverted :
    (read_data readEnvC1 (some "s") none none Bookmark.init).1 = none ∧
    (read_data readEnvC1 (some "s") none none Bookmark.init).2 =
      { Bookmark.init with lockHeld := true } ∧
    (read_data readEnvC1 (some "s") none none lockedBookmark).1 =
      some [("time", ["100"])] ∧
    (read_data readEnvC1 (some "s") none none lockedBookmark).2 =
      { Bookmark.init with
          first_id := some ⟨100, none⟩
          last_id := some ⟨100, none⟩
          first_time := some 1000
          last_time := some 2000 } := by
  refine ⟨rfl, rfl, rfl, rfl⟩

/-- C2: the claim says two `write_data` rows falling in the same integer
millisecond get sequence-disambiguated ids, making the stream's id sequence
strictly increasing and collision-free.  In the source
`Database.validate_redis_time` returns early whenever `bookmark.write` is
unset, and the only assignment to `bookmark.write` sits after that early
return, so the bookmark is never recorded: both rows at 100 ms get the
identical plain id and the bookmark is returned untouched. -/
theorem c2_write_ids_not_unique :
    write_data_ids [100, 100] Bookmark.init =
      .ok ([⟨100, none⟩, ⟨100, none⟩], Bookmark.init) := by
  rfl

/-- C3 counterexample, two failures of the claimed round trip.  First, for
the well-formed request `GET /a?k=v HTTP/1.1` (non-empty query mapping),
decoding the encoded bytes yields a request whose query mapping is empty —
`Request.format_request_line` emits only `self.path`, never the queries.
Second, a request with exactly 32 distinct headers (the spec's stated
maximum) encodes fine, but its encoding fails to parse at all: the
32-iteration loop of `SocketHandler.parse_header` needs a spare iteration
for the closing blank line, so 32 header lines exhaust it and hit the
for/else `Too many headers` branch. -/
theorem c3_roundtrip_failures :
    ((get_data c3Req).bind parse_request =
        some ({ c3Req with queries := [] }, []) ∧
      c3Req.queries ≠ []) ∧
    (c3Req32.header.length = 32 ∧ (c3Req32.header.map Prod.fst).Nodup ∧
      (get_data c3Req32).isSome = true ∧
      (get_data c3Req32).bind parse_request = none) := by
  refine ⟨by decide, by decide, by decide, by decide, ?_⟩
  have hver : verify c3Req32 = true := rfl
  have hne : ¬ c3Req32.header = [] := by decide
  have hs : get_data c3Req32 =
      some (("GET".toList ++ ' ' :: "/".toList ++ ' ' :: "HTTP/1.1".toList) ++
        '\r' :: '\n' :: (renderHeaders c3Req32.header ++ '\r' :: '\n' :: ['\r', '\n'])) := by
    rw [get_data, hver]
    simp only [Bool.true_eq_false, if_false]
    rw [format_headers_eq, if_neg hne]
    dsimp only [c3Req32, format_request_line, optBytes, Option.getD]
    simp [crlf]
  rw [hs]
  dsimp only [Option.bind]
  unfold parse_request
  rw [parse_request_line_request {} "GET".toList "/".toList "HTTP/1.1".toList _
    (by decide) (by decide) (by decide) (by decide) (by decide)]
  dsimp only
  unfold parse_header
  rw [parseHeaderAux_overflow c3Req32.header 32 _ ['\r', '\n'] (by decide) (by decide)]

/-- Closed instance of the amended round trip: the concrete well-formed
request `GET / HTTP/1.1` with a host header and a declared 3-byte body
encodes to a byte stream that parses back to the same request. -/
theorem c3_roundtrip_without_queries_witness :
    ∃ s rest, get_data c3WitnessReq = some s ∧
      parse_request s = some (c3WitnessReq, rest) := by
  refine c3_roundtrip_without_queries c3WitnessReq
    ⟨Or.inl ⟨"GET".toList, "/".toList, rfl, rfl, rfl, rfl, by decide, by decide,
      by decide, by decide, by decide⟩, by decide, by decide, ?_, rfl⟩
  exact ⟨by decide, "3".toList, rfl, by decide, by decide⟩

/-- C4: the claim says `SocketHandler.read` enforces the 256-byte start-line
limit, the 1024-byte header-line limit and the 32-iteration header count,
shutting the connection down (dispatching nothing) when any is exceeded.
The length checks sit only inside the `while data[-2:] != CRLF` continuation
loop, so any line whose first `readline()` already ends in CRLF is accepted
at any length: a request with a 1100-byte header value is parsed and
dispatched with that value intact (first conjunct, spec scenario S4), and so
is one with a 300-byte method (second conjunct).  Only the header-count
limit actually fires: 33 header lines exhaust the 32-iteration loop and the
parse fails (third conjunct). -/
theorem c4_parser_limits_not_enforced :
    (parse_request ("GET / HTTP/1.1\r\nx: ".toList ++
        List.replicate 1100 'a' ++ "\r\n\r\n".toList)).map (fun pr => pr.1.header) =
      some [("x".toList, List.replicate 1100 'a')] ∧
    (parse_request (List.replicate 300 'G' ++ " / HTTP/1.1\r\n\r\n".toList)).map
        (fun pr => pr.1.method) =
      some (some (List.replicate 300 'G')) ∧
    parse_request ("GET / HTTP/1.1\r\n".toList ++
        (List.replicate 33 "a: b\r\n".toList).flatten ++ "\r\n".toList) = none := by
  have hGET : "GET".toList = ['G', 'E', 'T'] := rfl
  have hSlash : "/".toList = ['/'] := rfl
  have hVer : "HTTP/1.1".toList = ['H', 'T', 'T', 'P', '/', '1', '.', '1'] := rfl
  refine ⟨?_, ?_, ?_⟩
  · rw [show "GET / HTTP/1.1\r\nx: ".toList ++
        List.replicate 1100 'a' ++ "\r\n\r\n".toList =
      ("GET".toList ++ ' ' :: "/".toList ++ ' ' :: "HTTP/1.1".toList) ++ '\r' :: '\n' ::
        (("x".toList ++ ':' :: ' ' :: List.replicate 1100 'a') ++ '\r' :: '\n' ::
          ['\r', '\n']) from by
      rw [hGET, hSlash, hVer, show "x".toList = ['x'] from rfl,
        show "\r\n\r\n".toList = ['\r', '\n', '\r', '\n'] from rfl,
        show "GET / HTTP/1.1\r\nx: ".toList =
        ['G', 'E', 'T', ' ', '/', ' ', 'H', 'T', 'T', 'P', '/', '1', '.', '1',
         '\r', '\n', 'x', ':', ' '] from rfl]
      simp [-List.reduceReplicate]]
    unfold parse_request
    rw [parse_request_line_request {} "GET".toList "/".toList "HTTP/1.1".toList _
      (by decide) (by decide) (by decide) (by decide) (by decide)]
    dsimp only
    unfold parse_header
    have hw : goodVal (List.replicate 1100 'a') := by
      constructor
      · intro hmem
        exact absurd (List.mem_replicate.mp hmem).2 (by decide)
      · exact stripped_replicate 1100 'a' (by decide)
    rw [parseHeaderAux_cons 31 _ "x".toList (List.replicate 1100 'a') ['\r', '\n']
      (by decide) hw]
    rw [show dictInsert ([] : List (Bytes × Bytes)) "x".toList
        (List.replicate 1100 'a') = [("x".toList, List.replicate 1100 'a')] from by
      simp [dictInsert, -List.reduceReplicate]]
    rw [show (['\r', '\n'] : Bytes) =
      renderHeaders [] ++ '\r' :: '\n' :: ([] : Bytes) from by simp [renderHeaders]]
    rw [parseHeaderAux_all [] 31 _ [] (by simp) (by simp)]
    dsimp only [List.foldl_nil]
    rw [validate_eq_validateHeaders]
    dsimp only
    rw [show validateHeaders [("x".toList, List.replicate 1100 'a')] = true from rfl]
    simp only [Bool.true_eq_false, if_false]
    rfl
  · rw [show List.replicate 300 'G' ++ " / HTTP/1.1\r\n\r\n".toList =
      (List.replicate 300 'G' ++ ' ' :: "/".toList ++ ' ' :: "HTTP/1.1".toList) ++
        '\r' :: '\n' :: ['\r', '\n'] from by
      rw [hSlash, hVer, show " / HTTP/1.1\r\n\r\n".toList =
        [' ', '/', ' ', 'H', 'T', 'T', 'P', '/', '1', '.', '1',
         '\r', '\n', '\r', '\n'] from rfl]
      simp [-List.reduceReplicate]]
    have hm : goodToken (List.replicate 300 'G') := by
      constructor
      · simp [-List.reduceReplicate]
      · intro c hc
        rw [(List.mem_replicate.mp hc).2]
        decide
    have hhttp : startsWithL "HTTP/".toList (List.replicate 300 'G') = false := by
      rw [show "HTTP/".toList = 'H' :: "TTP/".toList from rfl,
        show (300 : ℕ) = 299 + 1 from rfl, List.replicate_succ]
      exact startsWithL_cons_ne 'H' 'G' _ _ (by decide)
    unfold parse_request
    rw [parse_request_line_request {} (List.replicate 300 'G') "/".toList
      "HTTP/1.1".toList _ hm (by decide) (by decide) hhttp (by decide)]
    dsimp only
    unfold parse_header
    rw [show (['\r', '\n'] : Bytes) =
      renderHeaders [] ++ '\r' :: '\n' :: ([] : Bytes) from by simp [renderHeaders]]
    rw [parseHeaderAux_all [] 32 _ [] (by simp) (by simp)]
    dsimp only [List.foldl_nil]
    rw [validate_eq_validateHeaders]
    dsimp only
    rw [show validateHeaders ([] : List (Bytes × Bytes)) = true from rfl]
    simp only [Bool.true_eq_false, if_false]
    rfl
  · rw [show "GET / HTTP/1.1\r\n".toList ++
        (List.replicate 33 "a: b\r\n".toList).flatten ++ "\r\n".toList =
      ("GET".toList ++ ' ' :: "/".toList ++ ' ' :: "HTTP/1.1".toList) ++ '\r' :: '\n' ::
        (renderHeaders (List.replicate 33 ("a".toList, "b".toList)) ++
          '\r' :: '\n' :: ([] : Bytes)) from by
      rw [renderHeaders, List.map_replicate,
        show renderHeader ("a".toList, "b".toList) = "a: b\r\n".toList from rfl]
      rw [hGET, hSlash, hVer, show "\r\n".toList = ['\r', '\n'] from rfl,
        show "GET / HTTP/1.1\r\n".toList =
        ['G', 'E', 'T', ' ', '/', ' ', 'H', 'T', 'T', 'P', '/', '1', '.', '1',
         '\r', '\n'] from rfl]
      simp [-List.reduceReplicate]]
    unfold parse_request
    rw [parse_request_line_request {} "GET".toList "/".toList "HTTP/1.1".toList _
      (by decide) (by decide) (by decide) (by decide) (by decide)]
    dsimp only
    unfold parse_header
    rw [parseHeaderAux_overflow (List.replicate 33 ("a".toList, "b".toList)) 32 _ []
      (by simp [-List.reduceReplicate])
      (fun kv hkv => by rw [(List.mem_replicate.mp hkv).2]; decide)]

/-- C5: the claim says a host header containing a deny-list substring (for
example `webredirect`) causes shutdown before dispatch.  Because
`SocketHandler.validate` builds `host_string` with a trailing comma (a
one-element tuple), the host check is equality, not containment: a host that
merely contains `webredirect` is dispatched.  The user-agent check is genuine
substring containment and does block (third conjunct, matching scenario
S5). -/
theorem c5_host_denylist_not_substring :
    (parse_request "GET / HTTP/1.1\r\nhost: my.webredirect.net\r\n\r\n".toList).map
        (fun p => (p.1.method, p.1.header)) =
      some (some "GET".toList, [("host".toList, "my.webredirect.net".toList)]) ∧
    containsSeq "webredirect".toList "my.webredirect.net".toList = true ∧
    parse_request
      "GET / HTTP/1.1\r\nuser-agent: cloudsystemnetworks-bot\r\ncontent-length: 3\r\n\r\nabc".toList
      = none := by
  decide

/-- C7: the claim says that after `set_size(k)` on a ring holding n > k
points written in insertion order, `read_all` returns exactly the last k of
those points in chronological order (index 0 oldest), and that growing the
ring preserves all existing points and pads the columns with zeros.  Both
hold: starting from a fresh ring of any geometry, writing a batch of n ≤ size
rows, shrinking to 0 < k < n and reading everything yields each column's last
k values in order, and growing to kg > size leaves each column's n values
followed by zeros. -/
theorem c7_ring_resize_preserves_newest
    (ncols sz n k kg : ℕ) (nd : List (List ℤ))
    (hnd : nd.length = ncols) (hne : nd ≠ [])
    (hcols : ∀ col ∈ nd, col.length = n)
    (hn : n ≤ sz) (hk1 : 0 < k) (hk2 : k < n) (hkg : sz < kg) :
    ((((GRB.init ncols sz).write nd).set_size k).read_all).1 =
      nd.map (fun col => col.drop (n - k)) ∧
    (((GRB.init ncols sz).write nd).set_size kg).data =
      nd.map (fun col => col ++ List.replicate (kg - n) 0) := by
  have hW := write_fresh sz n ncols nd hnd hne hcols hn
  constructor
  · rw [hW]
    rw [set_size_shrink_eq _ k (by dsimp only; omega) (by dsimp only; omega)]
    unfold GRB.read_all GRB.update GRB.sort
    dsimp only
    rw [if_neg (show ¬ k < k by omega)]
    dsimp only
    simp only [List.drop_zero, List.take_zero, List.append_nil, List.map_map]
    apply List.map_congr_left
    intro col hc
    have hcl := hcols col hc
    dsimp only [Function.comp]
    have hC : (col ++ List.replicate (sz - n) (0 : ℤ)).length = sz := by
      simp [hcl]; omega
    rw [pySlice_neg_take _ _ _ (by omega) (by omega)
      (by rw [hC]; omega) (by rw [hC]; omega)]
    have he1 : (((col ++ List.replicate (sz - n) (0 : ℤ)).length : ℤ) +
        (-(k : ℤ) - ((sz : ℤ) - (n : ℤ)))).toNat = n - k := by
      rw [hC]; omega
    have he2 : ((n : ℤ) - (((col ++ List.replicate (sz - n) (0 : ℤ)).length : ℤ) +
        (-(k : ℤ) - ((sz : ℤ) - (n : ℤ))))).toNat = k := by
      rw [hC]; omega
    rw [he1, he2]
    rw [List.drop_append_of_le_length (by omega)]
    rw [List.take_append_of_le_length (by simp [hcl]; omega)]
    exact List.take_of_length_le (by simp [hcl]; omega)
  · rw [hW]
    rw [set_size_grow_eq _ kg (by dsimp only; omega) (by dsimp only; omega)]
    dsimp only
    simp only [List.drop_zero, List.take_zero, List.append_nil, List.map_map]
    apply List.map_congr_left
    intro col hc
    dsimp only [Function.comp]
    rw [List.append_assoc, ← List.replicate_add]
    rw [show sz - n + (kg - sz) = kg - n from by omega]

/-- Witness for C7 at a concrete ring: three points written into a size-3
ring, shrunk to 2 and grown to 5. -/
theorem c7_ring_resize_preserves_newest_witness :
    ((((GRB.init 1 3).write [[1, 2, 3]]).set_size 2).read_all).1 = [[2, 3]] ∧
    (((GRB.init 1 3).write [[1, 2, 3]]).set_size 5).data = [[1, 2, 3, 0, 0]] := by
  have h := c7_ring_resize_preserves_newest 1 3 3 2 5 [[1, 2, 3]] rfl
    (by decide) (by decide) (by decide) (by decide) (by decide) (by decide)
  exact ⟨h.1.trans (by decide), h.2.trans (by decide)⟩

/-- C6: on a playback store, `time()` equals
`relative_stop_time + (wall_now*1000 − start_time) × playback_speed` while
active and equals the frozen `relative_stop_time` while paused; `start()` on
an active store changes nothing; and after `stop()` every later `time()`
call returns the value frozen at the stop, independent of the wall clock,
until `start()` is called again. -/
theorem c6_playback_time_model (s : PlaybackDB) (now now2 : ℚ) :
    (s.playback_active = true →
      s.time now = s.relative_stop_time + (now * 1000 - s.start_time) * s.playback_speed) ∧
    (s.playback_active = false → s.time now = s.relative_stop_time) ∧
    (s.playback_active = true → s.start now = s) ∧
    (s.stop now).time now2 = s.time now ∧
    (s.stop now).playback_active = false := by
  cases h : s.playback_active <;>
    simp [PlaybackDB.time, PlaybackDB.start, PlaybackDB.stop,
      PlaybackDB.is_streaming, h]

/-- Witness for C6 at a concrete active playback store. -/
theorem c6_playback_time_model_witness :
    ((⟨2, true, 1000, 500⟩ : PlaybackDB).time 3 =
      500 + (3 * 1000 - 1000) * 2) ∧
    ((⟨2, true, 1000, 500⟩ : PlaybackDB).start 7 = ⟨2, true, 1000, 500⟩) ∧
    (((⟨2, true, 1000, 500⟩ : PlaybackDB).stop 3).time 9 =
      (⟨2, true, 1000, 500⟩ : PlaybackDB).time 3) :=
  ⟨(c6_playback_time_model ⟨2, true, 1000, 500⟩ 3 9).1 rfl,
   (c6_playback_time_model ⟨2, true, 1000, 500⟩ 7 9).2.2.1 rfl,
   (c6_playback_time_model ⟨2, true, 1000, 500⟩ 3 9).2.2.2.1⟩

/-- C8 amended: `remove_socket` with an id absent from the registry is a
no-op; on a registered handler whose exit flag is unset it leaves the
registry untouched but — contrary to the original claim — sets both the
node's exit and close flags (because `throw` calls `shutdown`); on a halted
handler it removes the registry entry and touches nothing else. -/
theorem c8_remove_socket_amended (n : NodeSt) (id : String) :
    (n.sockets.lookup id = none → n.remove_socket id = n) ∧
    (∀ h, n.sockets.lookup id = some h → h.exit = false →
      (n.remove_socket id).sockets = n.sockets ∧
      (n.remove_socket id).exit = true ∧ (n.remove_socket id).close = true) ∧
    (∀ h, n.sockets.lookup id = some h → h.exit = true →
      n.remove_socket id =
        { n with sockets := n.sockets.filter (fun p => p.1 ≠ id) }) := by
  refine ⟨?_, ?_, ?_⟩
  · intro hnone
    unfold NodeSt.remove_socket
    rw [hnone]
  · intro h hl hex
    unfold NodeSt.remove_socket NodeSt.throw NodeSt.shutdown
    rw [hl]
    simp only [hex, if_pos rfl]
    by_cases hc : n.close ∧ n.exit
    · rw [if_pos hc]
      exact ⟨rfl, hc.2, hc.1⟩
    · rw [if_neg hc]
      exact ⟨rfl, rfl, rfl⟩
  · intro h hl hex
    unfold NodeSt.remove_socket
    rw [hl]
    simp [hex]

/-- Witness for the amended C8 claim at concrete nodes. -/
theorem c8_remove_socket_amended_witness :
    ((⟨[("a", ⟨false⟩)], false, false⟩ : NodeSt).remove_socket "a").exit = true ∧
    (⟨[("b", ⟨true⟩)], false, false⟩ : NodeSt).remove_socket "b" =
      ⟨[], false, false⟩ := by
  refine ⟨((c8_remove_socket_amended ⟨[("a", ⟨false⟩)], false, false⟩ "a").2.1
    ⟨false⟩ rfl rfl).2.1, ?_⟩
  rw [(c8_remove_socket_amended ⟨[("b", ⟨true⟩)], false, false⟩ "b").2.2
    ⟨true⟩ rfl rfl]
  decide

/-- C8 counterexample: calling `remove_socket` on a handler whose exit flag
is not set does leave the registry unchanged, but it does not leave the
Node's own flags unchanged: `Base.throw` calls `self.shutdown()`, setting
both the exit and the close flag of the node. -/
theorem c8_remove_socket_sets_flags :
    NodeSt.remove_socket ⟨[("a", ⟨false⟩)], false, false⟩ "a" =
      ⟨[("a", ⟨false⟩)], true, true⟩ := by
  decide

/-- C9: the claim says `DatabaseController.remove` detaches the session
binding in every case.  For a live store the source returns before the
`del self.sessions[ID]` line, so the binding survives and `get` still
returns the store (first conjunct).  The playback refcounting does behave as
claimed: with two attached sessions the count drops to one without a backend
shutdown, and with one attached session the backend is shut down and the
port's file association released (later conjuncts). -/
theorem c9_remove_live_binding_stays :
    Controller.remove ⟨[("sid", ⟨true, 0⟩)], portsC9⟩ "sid" =
      (⟨[("sid", ⟨true, 0⟩)], portsC9⟩, false) ∧
    Controller.get (Controller.remove ⟨[("sid", ⟨true, 0⟩)], portsC9⟩ "sid").1 "sid" =
      some ⟨true, 0⟩ ∧
    Controller.remove ⟨[("p1", ⟨false, 7000⟩)], portsC9⟩ "p1" =
      (⟨[], [(7000, ⟨some "f.rdb", 1⟩), (7001, ⟨none, 0⟩)]⟩, false) ∧
    Controller.remove ⟨[("p1", ⟨false, 7000⟩)], [(7000, ⟨some "f.rdb", 1⟩)]⟩ "p1" =
      (⟨[], [(7000, ⟨none, 0⟩)]⟩, true) := by
  decide

/-- C10 amended: `write`, `read` (which never touches the ring state) and
`read_all` preserve the structural invariant; a write of a batch of m rows
advances the head by m modulo the size and saturates the length at the size;
and `set_size` re-establishes the invariant when growing past the current
size, or when shrinking to a size between 1 and the current fill level —
but not (per the counterexample) when the new size lies strictly between
the fill level and the current size. -/
theorem c10_invariant_amended (g : GRB) (nd : List (List ℤ)) (k : ℕ)
    (h : g.Inv) :
    (g.write nd).Inv ∧
    (g.write nd).head = (g.head + (nd.headD []).length) % g.size ∧
    (g.write nd).length = min (g.length + (nd.headD []).length) g.size ∧
    (g.read_all).2.Inv ∧
    (g.size < k → (g.set_size k).Inv) ∧
    (1 ≤ k → k ≤ g.length → (g.set_size k).Inv) := by
  obtain ⟨w1, -, w3, w4, -⟩ := write_spec g nd h
  exact ⟨w1, w3, w4, (read_all_spec g h).1,
    fun hk => set_size_grow_inv g k h hk,
    fun h1 h2 => set_size_shrink_inv g k h h1 h2⟩

/-- Witness for the amended C10 claim at a concrete ring. -/
theorem c10_invariant_amended_witness :
    ((GRB.init 1 3).write [[5]]).Inv ∧ ((GRB.init 1 3).set_size 4).Inv :=
  ⟨(c10_invariant_amended (GRB.init 1 3) [[5]] 4 (by decide)).1,
   (c10_invariant_amended (GRB.init 1 3) [[5]] 4 (by decide)).2.2.2.2.1 (by decide)⟩

/-- C10 counterexample: `set_size` does not re-establish the structural
invariant for every fill level.  Shrinking a freshly created ring of size 3
(zero points) to size 2 truncates every column to the empty list, so the
columns no longer have `size` elements, while the initial state did satisfy
the invariant. -/
theorem c10_set_size_breaks_invariant :
    (GRB.init 1 3).Inv ∧
    ((GRB.init 1 3).set_size 2).data = [[]] ∧
    ((GRB.init 1 3).set_size 2).size = 2 ∧
    ¬ ((GRB.init 1 3).set_size 2).Inv := by
  decide

end Osprey
